import Mathlib

/-!
# Verification of the LocalSend-TS node against its specification

This file gives a shallow embedding, in Lean 4, of the parts of the
CrossCopy/localsend-ts repository that the checked claims are about:

* the upload and prepare-upload routes of `createLocalSendRoutes`
  (`src/src/api/hono-server.ts`),
* the prepare-upload and upload routes of `HttpServer`
  (`src/services/HttpServer.ts`), including `validateFileTransfer` and
  `hasActiveBlockingSession`,
* the chunking loop of `LocalSendClient.uploadFile` (the HTTP client),
* `getDeviceInfo` (`src/src/utils/device.ts`),
* `HttpDiscovery.generateTargetIps` (`src/src/discovery/http-discovery.ts`).

Conventions of the embedding:

* JavaScript objects used as string-keyed maps become association lists
  `List (String × α)` with in-place update (`aset`), preserving insertion
  order like a JS object.
* JS `Set` becomes a duplicate-free `List String` with `insertNew`.
* Byte counts and timestamps are `Nat`.  JS numbers are IEEE doubles; all
  quantities here are integral and far below 2^53, so `Nat` arithmetic is
  exact, except that `rangeEnd - rangeStart + 1` is modelled with truncated
  subtraction as `rangeEnd + 1 - rangeStart` (they agree whenever
  `rangeStart ≤ rangeEnd + 1`, which the range grammar guarantees).
  Speed values (floats in JS) are abstracted to integer division with the
  same zero-elapsed guard as the source.
* I/O (directory creation, stream open/write/close, progress callbacks) is
  recorded as an explicit event trace; the time-gated intra-stream progress
  callbacks (fired at most every 100 ms inside the body-reading loop, never
  with `finished = true`) are elided from the trace.
* `Date.now()` is passed in as a request field `now`.
* Randomness (session ids, tokens) is passed in as explicit arguments.
-/

/-- Look up a key in an association list (first match), like `obj[key]`. -/
def alookup (l : List (String × α)) (k : String) : Option α :=
  match l with
  | [] => none
  | (k', v) :: rest => if k' = k then some v else alookup rest k

/-- Set a key in an association list, replacing the first occurrence in
place (like assignment to a JS object property), appending when absent. -/
def aset (l : List (String × α)) (k : String) (v : α) : List (String × α) :=
  match l with
  | [] => [(k, v)]
  | (k', v') :: rest => if k' = k then (k, v) :: rest else (k', v') :: aset rest k v

/-- Delete a key from an association list (like `delete obj[key]`). -/
def adel (l : List (String × α)) (k : String) : List (String × α) :=
  match l with
  | [] => []
  | (k', v') :: rest => if k' = k then rest else (k', v') :: adel rest k

/-- Insert into a JS `Set` modelled as a list: no-op when already present. -/
def insertNew (l : List String) (x : String) : List String :=
  if x ∈ l then l else x :: l

theorem alookup_aset_same (l : List (String × α)) (k : String) (v : α) :
    alookup (aset l k v) k = some v := by
  induction l with
  | nil => simp [aset, alookup]
  | cons hd tl ih =>
    obtain ⟨k', v'⟩ := hd
    by_cases h : k' = k <;> simp [aset, alookup, h, ih]

theorem alookup_aset_other (l : List (String × α)) (k k' : String) (v : α)
    (h : k' ≠ k) : alookup (aset l k v) k' = alookup l k' := by
  induction l with
  | nil => simp [aset, alookup, Ne.symm h]
  | cons hd tl ih =>
    obtain ⟨k₀, v₀⟩ := hd
    by_cases h0 : k₀ = k
    · subst h0
      simp [aset, alookup, Ne.symm h]
    · simp [aset, alookup, h0, ih]

/-! ## Path handling

`path.join` from Node (POSIX flavour): concatenate with `/`, then
normalise, resolving `.` and `..` segments.  Only relative paths occur in
the repository (`./received_files`, descriptor file names), so the model
covers the relative-path behaviour of `path.posix.join`.  String splitting
and prefix testing are defined structurally over the character list (they
agree with `String.splitOn` / `String.isPrefixOf`) so that every
definition evaluates inside the kernel. -/

/-- Split a character list at a separator character. -/
def splitChars (sep : Char) : List Char → List String
  | [] => [""]
  | c :: rest =>
    let r := splitChars sep rest
    if c = sep then "" :: r
    else match r with
      | [] => [⟨[c]⟩]
      | s :: tail => ⟨c :: s.data⟩ :: tail

/-- Split a string at a separator character (agrees with
`String.splitOn` for a one-character separator). -/
def splitOnChar (s : String) (sep : Char) : List String :=
  splitChars sep s.data

/-- Boolean prefix test on character lists. -/
def charsPrefix : List Char → List Char → Bool
  | [], _ => true
  | _ :: _, [] => false
  | a :: as, b :: bs => a = b && charsPrefix as bs

/-- Boolean string prefix test (agrees with `String.isPrefixOf`). -/
def strPrefix (a b : String) : Bool :=
  charsPrefix a.data b.data

/-- One step of POSIX path normalisation over the reversed stack of kept
segments: `..` pops a previous real segment, `.` and empty segments
disappear, unpoppable `..` is kept. -/
def normStep (stack : List String) (seg : String) : List String :=
  if seg = "" ∨ seg = "." then stack
  else if seg = ".." then
    match stack with
    | [] => [".."]
    | top :: rest => if top = ".." then ".." :: stack else rest
  else seg :: stack

/-- Normalise a list of path segments (POSIX, relative paths). -/
def normSegments (segs : List String) : List String :=
  (segs.foldl normStep []).reverse

/-- Join a list of segments back into a path string. -/
def joinSegments (segs : List String) : String :=
  match segs with
  | [] => "."
  | s :: rest => rest.foldl (fun acc seg => acc ++ "/" ++ seg) s

/-- Model of Node `path.join(a, b)` for relative POSIX paths. -/
def pathJoin (a b : String) : String :=
  joinSegments (normSegments (splitOnChar a '/' ++ splitOnChar b '/'))

/-- Model of Node `path.dirname` for relative POSIX paths (used only in the
`mkdir` event payload). -/
def dirname (p : String) : String :=
  joinSegments ((splitOnChar p '/').dropLast)

/-- Model of Node `path.basename`. -/
def pathBasename (p : String) : String :=
  match (splitOnChar p '/').getLast? with
  | none => ""
  | some s => s

/-- Modelled from the spec: `joinSafe(saveDirectory, basename(fileName))`,
"refusing paths that escape `saveDirectory`" and rejecting any `..` path
component.  This definition follows the specification's words (no such
function exists in the source); it is used only to compare the spec's
intended destination path with the one the code computes. -/
def joinSafe (saveDirectory fileName : String) : Option String :=
  let base := pathBasename fileName
  if base = ".." ∨ base = "." ∨ base = "" ∨ (splitOnChar fileName '/').contains ".." then
    none
  else
    some (pathJoin saveDirectory base)

/-- A destination string is under a directory when it equals the directory
or lives strictly below it (prefix followed by a separator). -/
def isUnderDir (dir p : String) : Bool :=
  p = dir ∨ strPrefix (dir ++ "/") p

/-! ## Hono server (`src/src/api/hono-server.ts`): data model -/

/-- File descriptor fields used by the upload route (`FileMetadata` in
`src/src/types.ts`; the other fields — `id`, `fileType`, `sha256`,
`preview`, `metadata` — are never read by the route). -/
structure FileMetadata where
  fileName : String
  size : Nat
  deriving DecidableEq

/-- The state of one `fs.WriteStream` as far as the route observes it:
the path it writes to and its `closed` flag. -/
structure FileStream where
  path : String
  closed : Bool
  deriving DecidableEq

/-- `SessionData` of the hono server (`createLocalSendRoutes` flavour,
which also carries `transferStartTimes`, `bytesReceived`, `fileStreams`).
`info` (the sender's `DeviceInfo`, never read by the routes after being
stored) is kept opaque as a string. -/
structure SessionData where
  info : String
  files : List (String × FileMetadata)
  tokens : List (String × String)
  acceptedFiles : List String
  receivedFiles : List String
  transferStartTimes : List (String × Nat)
  bytesReceived : List (String × Nat)
  fileStreams : List (String × FileStream)
  deriving DecidableEq

/-- Completion info passed to the final progress callback. -/
structure Completion where
  filePath : String
  totalTimeSeconds : Nat
  averageSpeed : Nat
  deriving DecidableEq

/-- Observable effects of one upload request. -/
inductive UploadEvent where
  | mkdirp (dir : String)
  | openWrite (path : String) (truncate : Bool)
  | writeBody (path : String) (bytes : Nat)
  | closeStream (path : String)
  | progress (fileId fileName : String) (received total speed : Nat)
      (finished : Bool) (completion : Option Completion)
  deriving DecidableEq

/-- Whether an event is an `fs.createWriteStream` call. -/
def UploadEvent.isOpen : UploadEvent → Bool
  | .openWrite _ _ => true
  | _ => false

/-- Whether an event is a progress callback with `finished = true`. -/
def UploadEvent.isFinished : UploadEvent → Bool
  | .progress _ _ _ _ _ finished _ => finished
  | _ => false

/-- One upload request, after Hono's query validation: the three query
parameters, the parsed `X-Content-Range` header (`none` = header absent,
`some none` = header present but not matching `bytes (\d+)-(\d+)/(\d+)`,
`some (some (s, e, t))` = parsed), the total number of body bytes actually
streamed, and the current clock value. -/
structure UploadRequest where
  sessionId : String
  fileId : String
  token : String
  contentRange : Option (Option (Nat × Nat × Nat))
  bodyLen : Nat
  now : Nat
  deriving DecidableEq

/-- Result of the upload route: HTTP status, `message` field, the optional
`bytesReceived`/`totalBytes` of the "Chunk received" response, the
resulting session table, and the event trace. -/
structure UploadResult where
  status : Nat
  message : String
  bytesReceivedOut : Option Nat
  totalBytesOut : Option Nat
  sessions : List (String × SessionData)
  events : List UploadEvent
  deriving DecidableEq

/-- The JS truthiness test `!session.transferStartTimes[fileId]`:
true when the key is absent or the stored number is 0. -/
def startFalsy (o : Option Nat) : Bool :=
  match o with
  | none => true
  | some t => t = 0

/-! ## Hono server: the upload route

Transcription of the `POST /api/localsend/v2/upload` handler of
`createLocalSendRoutes` (`src/src/api/hono-server.ts`, lines 767–977).
The handler is split at the point where the body starts streaming
(`uploadStreamPhase` covers lines 829–967); the code before that point
(query/session/token/acceptance/metadata checks, path computation, range
parsing) is `handleUpload`.  Error paths not reachable in the model are
elided: the `c.req.raw.body === null` 500, the catch-all 500s, and write
errors (the model's writes always succeed). -/

/-- Lines 829–847 of the upload route: (re)open the write stream and reset
the per-file counters.  A fresh transfer (falsy start time) or a chunked
upload with `START == 0` truncate-opens; a chunked upload with `START > 0`
append-opens when no open stream is at hand; otherwise the existing stream
is reused.  Returns the mutated session and the open events. -/
def streamSetup (req : UploadRequest) (session : SessionData)
    (filePath : String) (isChunked : Bool) (rangeStart : Nat) :
    SessionData × List UploadEvent :=
  let fresh := startFalsy (alookup session.transferStartTimes req.fileId)
  if fresh ∨ (isChunked ∧ rangeStart = 0) then
    ({ session with
        transferStartTimes := aset session.transferStartTimes req.fileId req.now,
        bytesReceived := aset session.bytesReceived req.fileId 0,
        fileStreams := aset session.fileStreams req.fileId ⟨filePath, false⟩ },
      [UploadEvent.openWrite filePath true])
  else if isChunked ∧ rangeStart > 0 then
    match alookup session.fileStreams req.fileId with
    | none =>
      ({ session with
          fileStreams := aset session.fileStreams req.fileId ⟨filePath, false⟩ },
        [UploadEvent.openWrite filePath false])
    | some st =>
      if st.closed then
        ({ session with
            fileStreams := aset session.fileStreams req.fileId ⟨filePath, false⟩ },
          [UploadEvent.openWrite filePath false])
      else (session, [])
  else (session, [])

/-- Lines 829–967: stream setup, body streaming, accounting, terminal-chunk
handling.  `range?` is `some (start, end, total)` for a chunked upload
(`isChunkedUpload = true`), `none` for single-shot. -/
def uploadStreamPhase (hasHandler : Bool) (sessions : List (String × SessionData))
    (req : UploadRequest) (session : SessionData) (fileMetadata : FileMetadata)
    (filePath : String) (range? : Option (Nat × Nat × Nat))
    (preEvents : List UploadEvent) : UploadResult :=
  let isChunked := range?.isSome
  let rangeStart := match range? with | some (s, _, _) => s | none => 0
  let rangeEnd := match range? with | some (_, e, _) => e | none => 0
  let totalSize := match range? with | some (_, _, t) => t | none => 0
  -- lines 829–847: (re)open the write stream and reset per-file counters
  let step1 := streamSetup req session filePath isChunked rangeStart
  let session1 := step1.1
  let openEvents := step1.2
  match alookup session1.fileStreams req.fileId with
  | none =>
    -- line 861: "File stream not found"; mutations made so far persist
    ⟨500, "File stream not found", none, none,
      aset sessions req.sessionId session1, preEvents ++ openEvents⟩
  | some fstream =>
    -- lines 869–906: stream the body (totalChunkSize accumulates the body
    -- bytes); the time-gated progress callbacks inside the loop are elided
    let totalChunkSize := req.bodyLen
    -- line 908: ranged uploads account the declared range length
    let chunkReceivedBytes := if isChunked then rangeEnd + 1 - rangeStart else totalChunkSize
    let newBytes := (alookup session1.bytesReceived req.fileId).getD 0 + chunkReceivedBytes
    let session2 := { session1 with
      bytesReceived := aset session1.bytesReceived req.fileId newBytes }
    let startTime := (alookup session2.transferStartTimes req.fileId).getD 0
    let elapsedMs := req.now - startTime
    let speed := if elapsedMs > 0 then newBytes * 1000 / elapsedMs else 0
    -- lines 915–923: end-of-chunk progress callback
    let progEvents :=
      if hasHandler then
        [UploadEvent.progress req.fileId fileMetadata.fileName newBytes
          fileMetadata.size speed false none]
      else []
    -- lines 925–927: terminal-chunk condition
    let isLastChunk :=
      if isChunked then rangeEnd + 1 ≥ totalSize else newBytes ≥ fileMetadata.size
    if isLastChunk then
      let session3 := { session2 with
        fileStreams := adel session2.fileStreams req.fileId,
        receivedFiles := insertNew session2.receivedFiles req.fileId }
      let totalTimeSeconds := elapsedMs / 1000
      let avgSpeed := speed
      let finEvents :=
        if hasHandler then
          [UploadEvent.progress req.fileId fileMetadata.fileName newBytes
            fileMetadata.size avgSpeed true
            (some ⟨filePath, totalTimeSeconds, avgSpeed⟩)]
        else []
      let sessions' :=
        if session3.receivedFiles.length = session3.acceptedFiles.length then
          adel sessions req.sessionId
        else aset sessions req.sessionId session3
      ⟨200, "File received successfully", none, none, sessions',
        preEvents ++ openEvents ++ [UploadEvent.writeBody fstream.path totalChunkSize]
          ++ progEvents ++ [UploadEvent.closeStream fstream.path] ++ finEvents⟩
    else
      ⟨200, "Chunk received", some newBytes, some fileMetadata.size,
        aset sessions req.sessionId session2,
        preEvents ++ openEvents ++ [UploadEvent.writeBody fstream.path totalChunkSize]
          ++ progEvents⟩

/-- The upload route of `createLocalSendRoutes` (lines 767–977). -/
def handleUpload (saveDirectory : String) (hasHandler : Bool)
    (sessions : List (String × SessionData)) (req : UploadRequest) : UploadResult :=
  if req.sessionId = "" ∨ req.fileId = "" ∨ req.token = "" then
    ⟨400, "Missing parameters", none, none, sessions, []⟩
  else
    match alookup sessions req.sessionId with
    | none => ⟨404, "Session not found", none, none, sessions, []⟩
    | some session =>
      if alookup session.tokens req.fileId ≠ some req.token then
        ⟨403, "Invalid token", none, none, sessions, []⟩
      else if ¬ session.acceptedFiles.contains req.fileId then
        ⟨403, "File not accepted", none, none, sessions, []⟩
      else
        match alookup session.files req.fileId with
        | none => ⟨404, "File metadata not found", none, none, sessions, []⟩
        | some fileMetadata =>
          -- line 795: the destination path joins the raw fileName
          let filePath := pathJoin saveDirectory fileMetadata.fileName
          -- lines 797–800: create intermediate directories
          let preEvents := [UploadEvent.mkdirp (dirname filePath)]
          match req.contentRange with
          | some none =>
            ⟨400, "Invalid Content-Range format", none, none, sessions, preEvents⟩
          | some (some (s, e, t)) =>
            if t ≠ fileMetadata.size then
              ⟨400, "File size mismatch", none, none, sessions, preEvents⟩
            else
              uploadStreamPhase hasHandler sessions req session fileMetadata
                filePath (some (s, e, t)) preEvents
          | none =>
            uploadStreamPhase hasHandler sessions req session fileMetadata
              filePath none preEvents

/-! ## Hono server: the prepare-upload route

Transcription of `POST /api/localsend/v2/prepare-upload` of
`createLocalSendRoutes` (`src/src/api/hono-server.ts`, lines 679–723).
The fresh random `sessionId` and per-file `tokens` are parameters. -/

/-- Result of the prepare-upload route: status, resulting session table,
whether `ctx.transferRequestHandler` was invoked, and the response
`sessionId` when one was issued. -/
structure PrepareResult where
  status : Nat
  sessions : List (String × SessionData)
  handlerInvoked : Bool
  sessionIdOut : Option String
  deriving DecidableEq

/-- The prepare-upload route.  `requirePin`/`pin` are `ctx.requirePin` /
`ctx.pin`; `hasHandler`/`handlerAccepts` model presence and return value of
`ctx.transferRequestHandler`; `pinParam` is the `pin` query parameter
(`none` when absent); `files` is the validated request body's file map;
`freshSessionId`/`freshTokens` stand for the `randomBytes(16)` draws. -/
def handlePrepareUpload (requirePin : Bool) (pin : String)
    (hasHandler handlerAccepts : Bool)
    (sessions : List (String × SessionData)) (pinParam : Option String)
    (info : String) (files : List (String × FileMetadata))
    (freshSessionId : String) (freshTokens : List (String × String)) : PrepareResult :=
  if requirePin then
    -- lines 683–687: `if (!pinParam || pinParam !== ctx.pin)` — note that
    -- an empty-string pin parameter is falsy in JS
    match pinParam with
    | none => ⟨401, sessions, false, none⟩
    | some p =>
      if p = "" ∨ p ≠ pin then ⟨401, sessions, false, none⟩
      else
        ⟨200,
          aset sessions freshSessionId
            ⟨info, files, freshTokens, files.map Prod.fst, [], [], [], []⟩,
          false, some freshSessionId⟩
  else if hasHandler ∧ ¬ handlerAccepts then
    ⟨403, sessions, true, none⟩
  else
    ⟨200,
      aset sessions freshSessionId
        ⟨info, files, freshTokens, files.map Prod.fst, [], [], [], []⟩,
      hasHandler, some freshSessionId⟩

/-! ## `services/HttpServer.ts`

The second server implementation.  Its sessions store the per-file token
map (`files`), the negotiating client's IP, and the prepare request's file
descriptors. -/

/-- Fields of a `FileInfo` of `services/models.ts` used by the upload
route. -/
structure SvcFileInfo where
  fileName : String
  size : Nat
  deriving DecidableEq

/-- A session of `HttpServer.activeSessions`. -/
structure SvcSession where
  files : List (String × String)
  clientIp : String
  prepareFiles : List (String × SvcFileInfo)
  deriving DecidableEq

/-- `HttpServer.requiresPin` (lines 336–339): constantly `false` (TODO in
the source). -/
def svcRequiresPin : Bool := false

/-- `HttpServer.hasActiveBlockingSession` (lines 321–326): true iff some
active session belongs to a different client IP. -/
def svcHasActiveBlockingSession (sessions : List (String × SvcSession))
    (clientIp : String) : Bool :=
  sessions.any (fun s => s.2.clientIp ≠ clientIp)

/-- `HttpServer.validateFileTransfer` (lines 309–319). -/
def svcValidateFileTransfer (sessions : List (String × SvcSession))
    (sessionId fileId token clientIp : String) : Bool :=
  match alookup sessions sessionId with
  | none => false
  | some session =>
    if session.clientIp ≠ clientIp then false
    else alookup session.files fileId = some token

/-- Result of an `HttpServer` route: status, resulting session table, and
the file path written to (when a write happened). -/
structure SvcUploadResult where
  status : Nat
  message : String
  sessions : List (String × SvcSession)
  written : Option String
  deriving DecidableEq

/-- The upload route of `HttpServer.setupRoutes` (lines 204–278).  `cwd`
models `process.cwd()`.  The body stream is always available in the model
(`readStream` non-null), and writes succeed. -/
def svcHandleUpload (cwd : String) (sessions : List (String × SvcSession))
    (sessionId fileId token clientIp : String) : SvcUploadResult :=
  if ¬ svcValidateFileTransfer sessions sessionId fileId token clientIp then
    ⟨403, "Invalid token or IP address", sessions, none⟩
  else
    match alookup sessions sessionId with
    | none => ⟨403, "Invalid token or IP address", sessions, none⟩
    | some session =>
      match alookup session.prepareFiles fileId with
      | none => ⟨404, "File info not found", sessions, none⟩
      | some fileInfo =>
        -- lines 232–257: downloads directory, path.join with the raw
        -- fileName, stream the body into the file
        let filePath := pathJoin (pathJoin cwd "downloads") fileInfo.fileName
        ⟨200, "", sessions, some filePath⟩

/-- Result of the `HttpServer` prepare-upload route. -/
structure SvcPrepareResult where
  status : Nat
  message : String
  sessions : List (String × SvcSession)
  sessionIdOut : Option String
  deriving DecidableEq

/-- The prepare-upload route of `HttpServer.setupRoutes` (lines 135–201).
`clientIp` is the value computed from the `x-forwarded-for` /
`remote-addr` headers; `freshSessionId`/`freshTokens` stand for the
`Math.random()`-derived session id and file tokens.  `pinParam` models the
`pin` query parameter; since `svcRequiresPin = false` the PIN branch never
fires. -/
def svcHandlePrepareUpload (sessions : List (String × SvcSession))
    (clientIp : String) (pinOk : Bool)
    (prepareFiles : List (String × SvcFileInfo))
    (freshSessionId : String) (freshTokens : List (String × String)) : SvcPrepareResult :=
  if svcRequiresPin ∧ ¬ pinOk then
    ⟨401, "PIN required or invalid", sessions, none⟩
  else if svcHasActiveBlockingSession sessions clientIp then
    ⟨409, "Blocked by another session", sessions, none⟩
  else
    ⟨200, "",
      aset sessions freshSessionId ⟨freshTokens, clientIp, prepareFiles⟩,
      some freshSessionId⟩

/-! ## Device identity (`src/src/utils/device.ts`) -/

/-- The advertised device descriptor (`DeviceInfo` of `src/src/types.ts`,
the fields `getDeviceInfo` fills). -/
structure DeviceInfo where
  deviceAlias : String
  version : String
  deviceModel : String
  deviceType : String
  fingerprint : String
  port : Nat
  protocol : String
  download : Bool
  deriving DecidableEq

/-- The caller-supplied options of `getDeviceInfo`. -/
structure DeviceOptions where
  optAlias : Option String
  optPort : Option Nat
  optUseHttps : Option Bool
  optEnableDownloadApi : Option Bool
  deriving DecidableEq

/-- `DEFAULT_CONFIG.HTTP_PORT` (the LocalSend default port, 53317). -/
def defaultHttpPort : Nat := 53317

/-- `DEFAULT_CONFIG.PROTOCOL_VERSION`. -/
def protocolVersion : String := "2.0"

/-- `getDeviceInfo` (`src/src/utils/device.ts`, lines 40–65).  The random
fingerprint, OS-derived device model and env-derived device type are passed
in as arguments; everything else is the source's destructuring with
defaults followed by the object literal.  The source performs no
validation of any option. -/
def getDeviceInfo (options : DeviceOptions) (fingerprint deviceModel deviceType : String) :
    DeviceInfo :=
  { deviceAlias := options.optAlias.getD "LocalSend TS Device"
    version := protocolVersion
    deviceModel := deviceModel
    deviceType := deviceType
    fingerprint := fingerprint
    port := options.optPort.getD defaultHttpPort
    protocol := if options.optUseHttps.getD false then "https" else "http"
    download := options.optEnableDownloadApi.getD false }

/-! ## HTTP discovery (`src/src/discovery/http-discovery.ts`) -/

/-- The candidate targets contributed by one local address: hosts `1..254`
of its /24, skipping the address itself; an address that does not split
into four dot-separated parts contributes nothing
(`generateTargetIps`, lines 150–164, loop body). -/
def targetsForLocalIp (localIp : String) : List String :=
  let parts := splitOnChar localIp '.'
  if parts.length = 4 then
    (List.range' 1 254).filterMap (fun i =>
      let targetIp :=
        parts.headI ++ "." ++ parts.tail.headI ++ "." ++ parts.tail.tail.headI
          ++ "." ++ toString i
      if targetIp ≠ localIp then some targetIp else none)
  else []

/-- `HttpDiscovery.generateTargetIps` (lines 147–168): concatenate the
per-local-address candidate lists in order. -/
def generateTargetIps (localIps : List String) : List String :=
  localIps.foldl (fun targets localIp => targets ++ targetsForLocalIp localIp) []

/-! ## HTTP client chunking (`LocalSendClient.uploadFile`) -/

/-- `50 * 1024 * 1024`: the large-file threshold of `uploadFile`. -/
def chunkThreshold : Nat := 50 * 1024 * 1024

/-- `CHUNK_SIZE = 10 * 1024 * 1024`. -/
def clientChunkSize : Nat := 10 * 1024 * 1024

/-- One `POST /upload` chunk request of the client: the declared
`X-Content-Range: bytes start-endByte/total` header fields and the
`Content-Length` value. -/
structure ChunkRequest where
  start : Nat
  endByte : Nat
  total : Nat
  contentLength : Nat
  deriving DecidableEq

/-- The `while (offset < stats.size)` loop of `uploadFile` (large-file
branch, lines 648–698): sends the chunk `[offset, min(offset+CHUNK,size)-1]`,
stops with `success = false` as soon as a response is not ok (`respOk i` is
the 2xx-ness of the i-th chunk's response), otherwise advances
`offset = end`.  `fuel` bounds the iteration count (each iteration strictly
increases `offset`); callers pass enough fuel for the loop to finish. -/
def uploadChunkLoop (size : Nat) (respOk : Nat → Bool) :
    Nat → Nat → Nat → List ChunkRequest × Bool
  | 0, _, _ => ([], true)
  | fuel + 1, offset, idx =>
    if offset < size then
      let e := min (offset + clientChunkSize) size
      let ck : ChunkRequest := ⟨offset, e - 1, size, e - offset⟩
      if respOk idx then
        let rest := uploadChunkLoop size respOk fuel e (idx + 1)
        (ck :: rest.1, rest.2)
      else ([ck], false)
    else ([], true)

/-- The observable requests of one `uploadFile` call. -/
inductive UploadTrace where
  | singleShot (ok : Bool)
  | chunked (sent : List ChunkRequest) (result : Bool)
  deriving DecidableEq

/-- `LocalSendClient.uploadFile` (`src/unnamed/part_009`, lines 620–737),
restricted to its request behaviour: a file larger than the 50 MiB
threshold is sent through the chunk loop (fuel `size` suffices: each
iteration consumes at least one byte of offset); otherwise the whole body
goes in a single request that carries no `X-Content-Range` header. -/
def uploadFileModel (size : Nat) (respOk : Nat → Bool) : UploadTrace :=
  if size > chunkThreshold then
    let r := uploadChunkLoop size respOk size 0 0
    .chunked r.1 r.2
  else
    .singleShot (respOk 0)

/-! ## Supporting lemmas -/

/-- Any candidate generated from one local address differs from that
address (the `targetIp !== localIp` guard of `generateTargetIps`). -/
theorem ne_of_mem_targetsForLocalIp (localIp x : String)
    (hx : x ∈ targetsForLocalIp localIp) : x ≠ localIp := by
  simp only [targetsForLocalIp] at hx
  split at hx
  · simp only [List.mem_filterMap] at hx
    obtain ⟨i, _, hcond⟩ := hx
    split at hcond
    · rename_i hne
      cases hcond
      exact hne
    · cases hcond
  · cases hx

/-! ## The claims -/

/-- **C8**, counterexample.  The claim says a port outside `[1, 65535]`
makes the device-config constructor fail with an `invalid-config` error;
in fact `getDeviceInfo` performs no validation and returns a descriptor
carrying the out-of-range port unchanged: with `port = 70000` it returns a
descriptor whose port is 70000 (and `70000 > 65535`). -/
theorem c8_counterexample :
    (getDeviceInfo ⟨none, some 70000, none, none⟩ "fp" "model" "desktop").port = 70000 ∧
    ¬ (70000 ≤ 65535) :=
  ⟨rfl, by decide⟩

/-- **C8**, amended.  `getDeviceInfo` performs no port validation at all:
the returned descriptor's port equals the caller-supplied port when one is
given, and 53317 otherwise, whatever the supplied value. -/
theorem c8_amended (options : DeviceOptions)
    (fingerprint deviceModel deviceType : String) :
    (getDeviceInfo options fingerprint deviceModel deviceType).port =
      options.optPort.getD 53317 := rfl

/-- **C9**, counterexample.  With two local addresses in the same /24,
each appears among the candidate targets generated from the other, so the
combined target list does contain the node's own local addresses. -/
theorem c9_counterexample :
    "192.168.1.7" ∈ generateTargetIps ["192.168.1.5", "192.168.1.7"] ∧
    "192.168.1.5" ∈ generateTargetIps ["192.168.1.5", "192.168.1.7"] := by
  decide

/-- **C9**, amended.  The scanner excludes a local address only from the
candidate block generated from that same address: no address is ever a
member of its own block, and a node with a single local IPv4 address never
has itself in the combined target list.  (Two local addresses sharing a
/24 do appear in each other's blocks — see the counterexample.) -/
theorem c9_amended (localIp : String) :
    localIp ∉ targetsForLocalIp localIp ∧ localIp ∉ generateTargetIps [localIp] := by
  have h : localIp ∉ targetsForLocalIp localIp := fun hx =>
    ne_of_mem_targetsForLocalIp localIp localIp hx rfl
  refine ⟨h, ?_⟩
  simpa [generateTargetIps] using h

/-- **C3**, confirmed.  A prepare-upload handled while some active session
belongs to a different client IP answers HTTP 409 "Blocked by another
session" and leaves the session table unchanged; when every active session
belongs to the requesting IP the request is not rejected by this rule: it
answers 200 and stores the new session. -/
theorem c3_single_peer (sessions : List (String × SvcSession)) (clientIp : String)
    (pinOk : Bool) (prepareFiles : List (String × SvcFileInfo))
    (freshSessionId : String) (freshTokens : List (String × String)) :
    ((∃ p ∈ sessions, p.2.clientIp ≠ clientIp) →
      svcHandlePrepareUpload sessions clientIp pinOk prepareFiles freshSessionId freshTokens =
        ⟨409, "Blocked by another session", sessions, none⟩) ∧
    ((∀ p ∈ sessions, p.2.clientIp = clientIp) →
      (svcHandlePrepareUpload sessions clientIp pinOk prepareFiles freshSessionId
          freshTokens).status = 200 ∧
      (svcHandlePrepareUpload sessions clientIp pinOk prepareFiles freshSessionId
          freshTokens).sessions =
        aset sessions freshSessionId ⟨freshTokens, clientIp, prepareFiles⟩) := by
  constructor
  · intro h
    have hb : svcHasActiveBlockingSession sessions clientIp = true := by
      obtain ⟨p, hp, hne⟩ := h
      simp only [svcHasActiveBlockingSession, List.any_eq_true]
      exact ⟨p, hp, by simpa using hne⟩
    simp [svcHandlePrepareUpload, svcRequiresPin, hb]
  · intro h
    have hb : svcHasActiveBlockingSession sessions clientIp = false := by
      simp only [svcHasActiveBlockingSession, List.any_eq_false]
      intro p hp
      simpa using h p hp
    simp [svcHandlePrepareUpload, svcRequiresPin, hb]

/-- **C3**, witness: one active session for 10.0.0.1; a prepare-upload
from 10.0.0.2 answers 409 without creating a session. -/
theorem c3_single_peer_witness :
    svcHandlePrepareUpload [("s1", ⟨[], "10.0.0.1", []⟩)] "10.0.0.2" true [] "s2" [] =
      ⟨409, "Blocked by another session", [("s1", ⟨[], "10.0.0.1", []⟩)], none⟩ :=
  (c3_single_peer [("s1", ⟨[], "10.0.0.1", []⟩)] "10.0.0.2" true [] "s2" []).1
    ⟨("s1", ⟨[], "10.0.0.1", []⟩), by decide, by decide⟩

/-- **C7**, confirmed.  When the hono server requires a PIN, the
prepare-upload route never consults the transfer-request handler, and a
missing or mismatching `pin` query parameter yields 401 with the session
table unchanged (no session created, no tokens issued). -/
theorem c7_pin_replaces_handler (pin : String) (hasHandler handlerAccepts : Bool)
    (sessions : List (String × SessionData)) (pinParam : Option String)
    (info : String) (files : List (String × FileMetadata))
    (freshSessionId : String) (freshTokens : List (String × String)) :
    (handlePrepareUpload true pin hasHandler handlerAccepts sessions pinParam
        info files freshSessionId freshTokens).handlerInvoked = false ∧
    ((pinParam = none ∨ ∀ p, pinParam = some p → p ≠ pin) →
      (handlePrepareUpload true pin hasHandler handlerAccepts sessions pinParam
          info files freshSessionId freshTokens).status = 401 ∧
      (handlePrepareUpload true pin hasHandler handlerAccepts sessions pinParam
          info files freshSessionId freshTokens).sessions = sessions) := by
  constructor
  · cases pinParam with
    | none => simp [handlePrepareUpload]
    | some p =>
      by_cases hp : p = "" ∨ p ≠ pin <;> simp [handlePrepareUpload, hp]
  · intro h
    cases pinParam with
    | none => simp [handlePrepareUpload]
    | some p =>
      have hne : p ≠ pin := by
        rcases h with h | h
        · cases h
        · exact h p rfl
      simp [handlePrepareUpload, hne]

/-- **C7**, witness: PIN "123456" required, request carries pin "000000":
the handler is not consulted, the answer is 401, and the (empty) session
table stays empty. -/
theorem c7_pin_replaces_handler_witness :
    (handlePrepareUpload true "123456" true true [] (some "000000") "i" [] "sid"
        []).handlerInvoked = false ∧
    (handlePrepareUpload true "123456" true true [] (some "000000") "i" [] "sid"
        []).status = 401 ∧
    (handlePrepareUpload true "123456" true true [] (some "000000") "i" [] "sid"
        []).sessions = [] := by
  have h := c7_pin_replaces_handler "123456" true true [] (some "000000") "i" [] "sid" []
  have h2 := h.2 (Or.inr (fun p hp => by cases hp; decide))
  exact ⟨h.1, h2.1, h2.2⟩

/-- **C2**, counterexample.  The claim says an upload request naming an
unknown session answers 404; `HttpServer`'s upload route funnels every
authorization failure — unknown session included — through
`validateFileTransfer` and answers a generic 403 "Invalid token or IP
address": with an empty session table the response status is 403, not
404. -/
theorem c2_counterexample :
    (svcHandleUpload "cwd" [] "s1" "f1" "t1" "1.2.3.4").status = 403 ∧
    (svcHandleUpload "cwd" [] "s1" "f1" "t1" "1.2.3.4").message =
      "Invalid token or IP address" ∧
    (svcHandleUpload "cwd" [] "s1" "f1" "t1" "1.2.3.4").status ≠ 404 := by
  decide

/-- **C2**, amended.  In `HttpServer`, an upload chunk is authorized iff a
session with the given id exists, its recorded client IP equals the
request's source IP, and the session's token for `fileId` equals `token`;
every authorization failure (unknown session, bad token, unknown file, IP
mismatch alike) answers the single generic 403 "Invalid token or IP
address" rather than per-condition errors, and when authorization passes
and the descriptor exists the body is written under the descriptor's
fileName. -/
theorem c2_amended (cwd : String) (sessions : List (String × SvcSession))
    (sessionId fileId token clientIp : String) :
    (svcValidateFileTransfer sessions sessionId fileId token clientIp = true ↔
      ∃ sess, alookup sessions sessionId = some sess ∧ sess.clientIp = clientIp ∧
        alookup sess.files fileId = some token) ∧
    (svcValidateFileTransfer sessions sessionId fileId token clientIp = false →
      svcHandleUpload cwd sessions sessionId fileId token clientIp =
        ⟨403, "Invalid token or IP address", sessions, none⟩) ∧
    (∀ sess fileInfo, alookup sessions sessionId = some sess →
      sess.clientIp = clientIp → alookup sess.files fileId = some token →
      alookup sess.prepareFiles fileId = some fileInfo →
      svcHandleUpload cwd sessions sessionId fileId token clientIp =
        ⟨200, "", sessions,
          some (pathJoin (pathJoin cwd "downloads") fileInfo.fileName)⟩) := by
  refine ⟨?_, ?_, ?_⟩
  · constructor
    · intro hv
      unfold svcValidateFileTransfer at hv
      cases hs : alookup sessions sessionId with
      | none => rw [hs] at hv; cases hv
      | some sess =>
        rw [hs] at hv
        by_cases hip : sess.clientIp = clientIp
        · refine ⟨sess, rfl, hip, ?_⟩
          simpa [hip] using hv
        · simp [hip] at hv
    · rintro ⟨sess, hs, hip, htok⟩
      unfold svcValidateFileTransfer
      rw [hs]
      simp [hip, htok]
  · intro hv
    unfold svcHandleUpload
    simp [hv]
  · intro sess fileInfo hs hip htok hfi
    have hv : svcValidateFileTransfer sessions sessionId fileId token clientIp = true := by
      unfold svcValidateFileTransfer
      rw [hs]
      simp [hip, htok]
    unfold svcHandleUpload
    rw [hv]
    simp [hs, hfi]

/-- **C2**, witness: a valid session for client 9.9.9.9 with token "tok"
for file "f1"; the matching request is authorized and written under
`cwd/downloads/a.txt`. -/
theorem c2_amended_witness :
    svcHandleUpload "cwd" [("s1", ⟨[("f1", "tok")], "9.9.9.9", [("f1", ⟨"a.txt", 5⟩)]⟩)]
        "s1" "f1" "tok" "9.9.9.9" =
      ⟨200, "", [("s1", ⟨[("f1", "tok")], "9.9.9.9", [("f1", ⟨"a.txt", 5⟩)]⟩)],
        some "cwd/downloads/a.txt"⟩ := by
  have h := (c2_amended "cwd"
    [("s1", ⟨[("f1", "tok")], "9.9.9.9", [("f1", ⟨"a.txt", 5⟩)]⟩)]
    "s1" "f1" "tok" "9.9.9.9").2.2 ⟨[("f1", "tok")], "9.9.9.9", [("f1", ⟨"a.txt", 5⟩)]⟩
    ⟨"a.txt", 5⟩ (by decide) rfl (by decide) (by decide)
  rw [h]
  decide

/-- `streamSetup` emits no open event or exactly one, and any open event
targets `filePath`. -/
theorem streamSetup_cases (req : UploadRequest) (session : SessionData)
    (filePath : String) (isChunked : Bool) (rangeStart : Nat) :
    (streamSetup req session filePath isChunked rangeStart).2 = [] ∨
    (streamSetup req session filePath isChunked rangeStart).2 =
      [UploadEvent.openWrite filePath true] ∨
    (streamSetup req session filePath isChunked rangeStart).2 =
      [UploadEvent.openWrite filePath false] := by
  simp only [streamSetup]
  repeat' split
  all_goals simp

set_option maxHeartbeats 3200000 in
/-- The stream phase answers 200 or 500, its trace extends `preEvents`,
and every open event it adds targets `filePath`. -/
theorem uploadStreamPhase_opens (hasHandler : Bool)
    (sessions : List (String × SessionData)) (req : UploadRequest)
    (session : SessionData) (fileMetadata : FileMetadata) (filePath : String)
    (range? : Option (Nat × Nat × Nat)) (preEvents : List UploadEvent) :
    ((uploadStreamPhase hasHandler sessions req session fileMetadata filePath range?
        preEvents).status = 200 ∨
      (uploadStreamPhase hasHandler sessions req session fileMetadata filePath range?
        preEvents).status = 500) ∧
    (preEvents <+: (uploadStreamPhase hasHandler sessions req session fileMetadata
        filePath range? preEvents).events) ∧
    (∀ p b, UploadEvent.openWrite p b ∈ (uploadStreamPhase hasHandler sessions req
        session fileMetadata filePath range? preEvents).events →
      UploadEvent.openWrite p b ∈ preEvents ∨ p = filePath) := by
  rcases range? with _ | ⟨s, e, t⟩ <;> cases hasHandler <;>
    simp only [uploadStreamPhase, Option.isSome_none, Option.isSome_some] <;>
    refine ⟨?_, ?_, ?_⟩
  · repeat' split
    all_goals simp
  · repeat' split
    all_goals (try simp only [List.append_assoc]; exact List.prefix_append _ _)
  · intro p b hmem
    rcases streamSetup_cases req session filePath false 0 with h | h | h <;>
      · repeat' split at hmem
        all_goals (rw [h] at hmem; simp at hmem; tauto)
  · repeat' split
    all_goals simp
  · repeat' split
    all_goals (try simp only [List.append_assoc]; exact List.prefix_append _ _)
  · intro p b hmem
    rcases streamSetup_cases req session filePath false 0 with h | h | h <;>
      · repeat' split at hmem
        all_goals (rw [h] at hmem; simp at hmem; tauto)
  · repeat' split
    all_goals simp
  · repeat' split
    all_goals (try simp only [List.append_assoc]; exact List.prefix_append _ _)
  · intro p b hmem
    rcases streamSetup_cases req session filePath true s with h | h | h <;>
      · repeat' split at hmem
        all_goals (rw [h] at hmem; simp at hmem; tauto)
  · repeat' split
    all_goals simp
  · repeat' split
    all_goals (try simp only [List.append_assoc]; exact List.prefix_append _ _)
  · intro p b hmem
    rcases streamSetup_cases req session filePath true s with h | h | h <;>
      · repeat' split at hmem
        all_goals (rw [h] at hmem; simp at hmem; tauto)

/-- **C1**, counterexample.  A descriptor whose `fileName` is
`"../evil.txt"` is not refused: the upload route answers 200 and opens its
write stream at `"evil.txt"`, which lies outside `./received_files` and
differs from the spec's `joinSafe` destination (which refuses the name
altogether). -/
theorem c1_counterexample :
    (handleUpload "./received_files" true
        [("s1", ⟨"i", [("f1", ⟨"../evil.txt", 4⟩)], [("f1", "tok")], ["f1"], [], [],
          [], []⟩)]
        ⟨"s1", "f1", "tok", none, 4, 1000⟩).status = 200 ∧
    (handleUpload "./received_files" true
        [("s1", ⟨"i", [("f1", ⟨"../evil.txt", 4⟩)], [("f1", "tok")], ["f1"], [], [],
          [], []⟩)]
        ⟨"s1", "f1", "tok", none, 4, 1000⟩).events.filter (fun e => e.isOpen) =
      [UploadEvent.openWrite "evil.txt" true] ∧
    isUnderDir "received_files" "evil.txt" = false ∧
    isUnderDir "./received_files" "evil.txt" = false ∧
    joinSafe "./received_files" "../evil.txt" = none := by
  decide

/-- **C1**, amended.  Every upload chunk request that reaches the write
step computes its destination as the plain `path.join(saveDirectory,
descriptor.fileName)` — the full relative fileName, not its basename, with
the implied intermediate directories created — and no path is ever refused
for escaping `saveDirectory`: the handler answers 200 (or 500 on a missing
stream), never a path-related rejection. -/
theorem c1_amended (saveDirectory : String) (hasHandler : Bool)
    (sessions : List (String × SessionData)) (req : UploadRequest)
    (session : SessionData) (fileMetadata : FileMetadata)
    (h1 : req.sessionId ≠ "") (h2 : req.fileId ≠ "") (h3 : req.token ≠ "")
    (hs : alookup sessions req.sessionId = some session)
    (ht : alookup session.tokens req.fileId = some req.token)
    (ha : session.acceptedFiles.contains req.fileId = true)
    (hm : alookup session.files req.fileId = some fileMetadata)
    (hcr : req.contentRange = none ∨
      ∃ s e, req.contentRange = some (some (s, e, fileMetadata.size))) :
    ((handleUpload saveDirectory hasHandler sessions req).status = 200 ∨
      (handleUpload saveDirectory hasHandler sessions req).status = 500) ∧
    (handleUpload saveDirectory hasHandler sessions req).events.head? =
      some (UploadEvent.mkdirp (dirname (pathJoin saveDirectory fileMetadata.fileName))) ∧
    (∀ p b, UploadEvent.openWrite p b ∈
        (handleUpload saveDirectory hasHandler sessions req).events →
      p = pathJoin saveDirectory fileMetadata.fileName) := by
  have ha' : req.fileId ∈ session.acceptedFiles := by simpa using ha
  rcases hcr with hcr | ⟨s, e, hcr⟩
  · have hred : handleUpload saveDirectory hasHandler sessions req =
        uploadStreamPhase hasHandler sessions req session fileMetadata
          (pathJoin saveDirectory fileMetadata.fileName) none
          [UploadEvent.mkdirp (dirname (pathJoin saveDirectory fileMetadata.fileName))] := by
      simp [handleUpload, h1, h2, h3, hs, ht, ha', hm, hcr]
    rw [hred]
    obtain ⟨hstat, hpre, hopen⟩ := uploadStreamPhase_opens hasHandler sessions req
      session fileMetadata (pathJoin saveDirectory fileMetadata.fileName) none
      [UploadEvent.mkdirp (dirname (pathJoin saveDirectory fileMetadata.fileName))]
    refine ⟨hstat, ?_, ?_⟩
    · obtain ⟨tail, htail⟩ := hpre
      rw [← htail]
      simp
    · intro p b hb
      rcases hopen p b hb with hin | hp
      · simp at hin
      · exact hp
  · have hred : handleUpload saveDirectory hasHandler sessions req =
        uploadStreamPhase hasHandler sessions req session fileMetadata
          (pathJoin saveDirectory fileMetadata.fileName) (some (s, e, fileMetadata.size))
          [UploadEvent.mkdirp (dirname (pathJoin saveDirectory fileMetadata.fileName))] := by
      simp [handleUpload, h1, h2, h3, hs, ht, ha', hm, hcr]
    rw [hred]
    obtain ⟨hstat, hpre, hopen⟩ := uploadStreamPhase_opens hasHandler sessions req
      session fileMetadata (pathJoin saveDirectory fileMetadata.fileName)
      (some (s, e, fileMetadata.size))
      [UploadEvent.mkdirp (dirname (pathJoin saveDirectory fileMetadata.fileName))]
    refine ⟨hstat, ?_, ?_⟩
    · obtain ⟨tail, htail⟩ := hpre
      rw [← htail]
      simp
    · intro p b hb
      rcases hopen p b hb with hin | hp
      · simp at hin
      · exact hp

/-- **C1**, witness for the amended theorem: a benign descriptor
`report.pdf` in `./received_files`; the trace starts with the mkdir of the
computed destination's directory. -/
theorem c1_amended_witness :
    (handleUpload "./received_files" true
        [("s1", ⟨"i", [("f1", ⟨"report.pdf", 4⟩)], [("f1", "tok")], ["f1"], [], [],
          [], []⟩)]
        ⟨"s1", "f1", "tok", none, 4, 1000⟩).events.head? =
      some (UploadEvent.mkdirp "received_files") := by
  have h := (c1_amended "./received_files" true
    [("s1", ⟨"i", [("f1", ⟨"report.pdf", 4⟩)], [("f1", "tok")], ["f1"], [], [], [], []⟩)]
    ⟨"s1", "f1", "tok", none, 4, 1000⟩
    ⟨"i", [("f1", ⟨"report.pdf", 4⟩)], [("f1", "tok")], ["f1"], [], [], [], []⟩
    ⟨"report.pdf", 4⟩ (by decide) (by decide) (by decide) (by decide) (by decide)
    (by decide) (by decide) (Or.inl rfl)).2.1
  rw [h]
  decide

theorem mem_keys_of_alookup_some (l : List (String × α)) (k : String) (v : α)
    (h : alookup l k = some v) : k ∈ l.map Prod.fst := by
  induction l with
  | nil => simp [alookup] at h
  | cons hd tl ih =>
    obtain ⟨k₁, v₁⟩ := hd
    simp only [alookup] at h
    by_cases h1 : k₁ = k
    · simp [h1]
    · simp only [if_neg h1] at h
      simp [ih h]

theorem alookup_adel_self (l : List (String × α)) (k : String)
    (h : (l.map Prod.fst).Nodup) : alookup (adel l k) k = none := by
  induction l with
  | nil => simp [adel, alookup]
  | cons hd tl ih =>
    obtain ⟨k₀, v₀⟩ := hd
    simp only [List.map_cons, List.nodup_cons] at h
    by_cases h0 : k₀ = k
    · subst h0
      simp only [adel, if_pos rfl]
      cases hl : alookup tl k₀ with
      | none => exact hl
      | some v => exact absurd (mem_keys_of_alookup_some tl k₀ v hl) h.1
    · simp [adel, alookup, h0, ih h.2]

theorem mem_insertNew_self (l : List String) (x : String) : x ∈ insertNew l x := by
  by_cases h : x ∈ l <;> simp [insertNew, h]

/-- Under the authorization hypotheses, the upload route reduces to the
stream phase at the raw-joined destination path. -/
theorem handleUpload_authorized (saveDirectory : String) (hasHandler : Bool)
    (sessions : List (String × SessionData)) (req : UploadRequest)
    (session : SessionData) (fileMetadata : FileMetadata)
    (h1 : req.sessionId ≠ "") (h2 : req.fileId ≠ "") (h3 : req.token ≠ "")
    (hs : alookup sessions req.sessionId = some session)
    (ht : alookup session.tokens req.fileId = some req.token)
    (ha : req.fileId ∈ session.acceptedFiles)
    (hm : alookup session.files req.fileId = some fileMetadata) :
    (req.contentRange = none →
      handleUpload saveDirectory hasHandler sessions req =
        uploadStreamPhase hasHandler sessions req session fileMetadata
          (pathJoin saveDirectory fileMetadata.fileName) none
          [UploadEvent.mkdirp (dirname (pathJoin saveDirectory fileMetadata.fileName))]) ∧
    (∀ s e, req.contentRange = some (some (s, e, fileMetadata.size)) →
      handleUpload saveDirectory hasHandler sessions req =
        uploadStreamPhase hasHandler sessions req session fileMetadata
          (pathJoin saveDirectory fileMetadata.fileName) (some (s, e, fileMetadata.size))
          [UploadEvent.mkdirp (dirname (pathJoin saveDirectory fileMetadata.fileName))]) := by
  constructor
  · intro hcr
    simp [handleUpload, h1, h2, h3, hs, ht, ha, hm, hcr]
  · intro s e hcr
    simp [handleUpload, h1, h2, h3, hs, ht, ha, hm, hcr]

/-- **C5**, confirmed.  An authorized chunk whose `X-Content-Range` TOTAL
differs from the descriptor's size answers 400 before any write handle is
created: the session table is returned unchanged and the only event is the
`mkdir` of the destination directory — no stream is opened or truncated,
nothing is written, and the session's per-file state is untouched. -/
theorem c5_total_mismatch (saveDirectory : String) (hasHandler : Bool)
    (sessions : List (String × SessionData)) (req : UploadRequest)
    (session : SessionData) (fileMetadata : FileMetadata) (s e t : Nat)
    (h1 : req.sessionId ≠ "") (h2 : req.fileId ≠ "") (h3 : req.token ≠ "")
    (hs : alookup sessions req.sessionId = some session)
    (ht : alookup session.tokens req.fileId = some req.token)
    (ha : req.fileId ∈ session.acceptedFiles)
    (hm : alookup session.files req.fileId = some fileMetadata)
    (hcr : req.contentRange = some (some (s, e, t)))
    (hne : t ≠ fileMetadata.size) :
    handleUpload saveDirectory hasHandler sessions req =
      ⟨400, "File size mismatch", none, none, sessions,
        [UploadEvent.mkdirp (dirname (pathJoin saveDirectory fileMetadata.fileName))]⟩ := by
  simp [handleUpload, h1, h2, h3, hs, ht, ha, hm, hcr, hne]

/-- **C5**, witness: TOTAL 5 against a descriptor of size 4 answers 400
with the session intact and no stream event. -/
theorem c5_total_mismatch_witness :
    handleUpload "./received_files" true
        [("s1", ⟨"i", [("f1", ⟨"report.pdf", 4⟩)], [("f1", "tok")], ["f1"], [], [],
          [], []⟩)]
        ⟨"s1", "f1", "tok", some (some (0, 4, 5)), 5, 1000⟩ =
      ⟨400, "File size mismatch", none, none,
        [("s1", ⟨"i", [("f1", ⟨"report.pdf", 4⟩)], [("f1", "tok")], ["f1"], [], [],
          [], []⟩)],
        [UploadEvent.mkdirp "received_files"]⟩ := by
  have h := c5_total_mismatch "./received_files" true
    [("s1", ⟨"i", [("f1", ⟨"report.pdf", 4⟩)], [("f1", "tok")], ["f1"], [], [], [], []⟩)]
    ⟨"s1", "f1", "tok", some (some (0, 4, 5)), 5, 1000⟩
    ⟨"i", [("f1", ⟨"report.pdf", 4⟩)], [("f1", "tok")], ["f1"], [], [], [], []⟩
    ⟨"report.pdf", 4⟩ 0 4 5 (by decide) (by decide) (by decide) (by decide)
    (by decide) (by decide) (by decide) rfl (by decide)
  rw [h]
  decide

set_option maxHeartbeats 1600000 in
/-- A ranged non-terminal chunk accounts the declared range length
`END + 1 - START`, regardless of the streamed body length: the
`bytesReceived` reported by the "Chunk received" response is the (possibly
reset) previous counter plus the declared length. -/
theorem uploadStreamPhase_ranged_nonterminal (hasHandler : Bool)
    (sessions : List (String × SessionData)) (req : UploadRequest)
    (session : SessionData) (fileMetadata : FileMetadata) (filePath : String)
    (s e t : Nat) (preEvents : List UploadEvent)
    (hnt : ¬ (e + 1 ≥ t)) :
    (uploadStreamPhase hasHandler sessions req session fileMetadata filePath
        (some (s, e, t)) preEvents).bytesReceivedOut =
      some ((if startFalsy (alookup session.transferStartTimes req.fileId) = true ∨ s = 0
          then 0 else (alookup session.bytesReceived req.fileId).getD 0) + (e + 1 - s)) ∧
    (uploadStreamPhase hasHandler sessions req session fileMetadata filePath
        (some (s, e, t)) preEvents).message = "Chunk received" := by
  by_cases hf : startFalsy (alookup session.transferStartTimes req.fileId) = true
  · simp [uploadStreamPhase, streamSetup, hf, hnt, alookup_aset_same]
  · by_cases hs0 : s = 0
    · simp [uploadStreamPhase, streamSetup, hf, hs0, hnt, alookup_aset_same]
    · have hpos : 0 < s := Nat.pos_of_ne_zero hs0
      cases hstream : alookup session.fileStreams req.fileId with
      | none =>
        simp [uploadStreamPhase, streamSetup, hf, hs0, hpos, hstream, hnt,
          alookup_aset_same]
      | some st =>
        by_cases hc : st.closed = true
        · simp [uploadStreamPhase, streamSetup, hf, hs0, hpos, hstream, hc, hnt,
            alookup_aset_same]
        · simp [uploadStreamPhase, streamSetup, hf, hs0, hpos, hstream, hc, hnt,
            alookup_aset_same]

set_option maxHeartbeats 1600000 in
/-- A single-shot (no-range) non-terminal chunk accounts the actual number
of streamed body bytes. -/
theorem uploadStreamPhase_single_nonterminal (hasHandler : Bool)
    (sessions : List (String × SessionData)) (req : UploadRequest)
    (session : SessionData) (fileMetadata : FileMetadata) (filePath : String)
    (preEvents : List UploadEvent)
    (hstream : startFalsy (alookup session.transferStartTimes req.fileId) = false →
      alookup session.fileStreams req.fileId ≠ none)
    (hnt : ¬ ((if startFalsy (alookup session.transferStartTimes req.fileId) = true
        then 0 else (alookup session.bytesReceived req.fileId).getD 0) + req.bodyLen ≥
      fileMetadata.size)) :
    (uploadStreamPhase hasHandler sessions req session fileMetadata filePath none
        preEvents).bytesReceivedOut =
      some ((if startFalsy (alookup session.transferStartTimes req.fileId) = true
          then 0 else (alookup session.bytesReceived req.fileId).getD 0) + req.bodyLen) ∧
    (uploadStreamPhase hasHandler sessions req session fileMetadata filePath none
        preEvents).message = "Chunk received" := by
  by_cases hf : startFalsy (alookup session.transferStartTimes req.fileId) = true
  · simp only [hf] at hnt
    simp at hnt
    have hnt' : ¬ fileMetadata.size ≤ req.bodyLen := Nat.not_le.mpr hnt
    simp [uploadStreamPhase, streamSetup, hf, hnt', alookup_aset_same]
  · have hf' : startFalsy (alookup session.transferStartTimes req.fileId) = false :=
      Bool.eq_false_iff.mpr hf
    simp only [hf'] at hnt
    simp at hnt
    cases hst : alookup session.fileStreams req.fileId with
    | none => exact absurd hst (hstream hf')
    | some st =>
      have hnt' : ¬ fileMetadata.size ≤
          (alookup session.bytesReceived req.fileId).getD 0 + req.bodyLen :=
        Nat.not_le.mpr hnt
      simp [uploadStreamPhase, streamSetup, hf, hf', hst, hnt', alookup_aset_same]

/-- **C10**, confirmed.  For an authorized ranged chunk that streams to a
non-terminal "Chunk received" response, the reported `bytesReceived` is
the (possibly reset) previous counter plus the declared range length
`END + 1 - START` — the streamed body length `req.bodyLen` does not appear
in the result, so the accounting is independent of the actual body size;
for a single-shot (no-range) chunk the counter advances by the actual
streamed byte count instead. -/
theorem c10_declared_range_accounting (saveDirectory : String) (hasHandler : Bool)
    (sessions : List (String × SessionData)) (req : UploadRequest)
    (session : SessionData) (fileMetadata : FileMetadata)
    (h1 : req.sessionId ≠ "") (h2 : req.fileId ≠ "") (h3 : req.token ≠ "")
    (hs : alookup sessions req.sessionId = some session)
    (ht : alookup session.tokens req.fileId = some req.token)
    (ha : req.fileId ∈ session.acceptedFiles)
    (hm : alookup session.files req.fileId = some fileMetadata) :
    (∀ s e, req.contentRange = some (some (s, e, fileMetadata.size)) →
      ¬ (e + 1 ≥ fileMetadata.size) →
      (handleUpload saveDirectory hasHandler sessions req).bytesReceivedOut =
        some ((if startFalsy (alookup session.transferStartTimes req.fileId) = true ∨ s = 0
            then 0 else (alookup session.bytesReceived req.fileId).getD 0) + (e + 1 - s))) ∧
    (req.contentRange = none →
      (startFalsy (alookup session.transferStartTimes req.fileId) = false →
        alookup session.fileStreams req.fileId ≠ none) →
      ¬ ((if startFalsy (alookup session.transferStartTimes req.fileId) = true
          then 0 else (alookup session.bytesReceived req.fileId).getD 0) + req.bodyLen ≥
        fileMetadata.size) →
      (handleUpload saveDirectory hasHandler sessions req).bytesReceivedOut =
        some ((if startFalsy (alookup session.transferStartTimes req.fileId) = true
            then 0 else (alookup session.bytesReceived req.fileId).getD 0) +
          req.bodyLen)) := by
  have hauth := handleUpload_authorized saveDirectory hasHandler sessions req session
    fileMetadata h1 h2 h3 hs ht ha hm
  constructor
  · intro s e hcr hnt
    rw [hauth.2 s e hcr]
    exact (uploadStreamPhase_ranged_nonterminal hasHandler sessions req session
      fileMetadata (pathJoin saveDirectory fileMetadata.fileName) s e fileMetadata.size
      [UploadEvent.mkdirp (dirname (pathJoin saveDirectory fileMetadata.fileName))]
      hnt).1
  · intro hcr hstream hnt
    rw [hauth.1 hcr]
    exact (uploadStreamPhase_single_nonterminal hasHandler sessions req session
      fileMetadata (pathJoin saveDirectory fileMetadata.fileName)
      [UploadEvent.mkdirp (dirname (pathJoin saveDirectory fileMetadata.fileName))]
      hstream hnt).1

/-- **C10**, witness: a mid-transfer session with 7 bytes accounted gets a
chunk declaring range 10–19 (length 10) while the body actually streams
only 3 bytes; the response reports 7 + 10 = 17. -/
theorem c10_declared_range_accounting_witness :
    (handleUpload "./received_files" true
        [("s1", ⟨"i", [("f1", ⟨"big.bin", 100⟩)], [("f1", "tok")], ["f1"], [],
          [("f1", 500)], [("f1", 7)], [("f1", ⟨"received_files/big.bin", false⟩)]⟩)]
        ⟨"s1", "f1", "tok", some (some (10, 19, 100)), 3, 1000⟩).bytesReceivedOut =
      some 17 := by
  have h := (c10_declared_range_accounting "./received_files" true
    [("s1", ⟨"i", [("f1", ⟨"big.bin", 100⟩)], [("f1", "tok")], ["f1"], [],
      [("f1", 500)], [("f1", 7)], [("f1", ⟨"received_files/big.bin", false⟩)]⟩)]
    ⟨"s1", "f1", "tok", some (some (10, 19, 100)), 3, 1000⟩
    ⟨"i", [("f1", ⟨"big.bin", 100⟩)], [("f1", "tok")], ["f1"], [],
      [("f1", 500)], [("f1", 7)], [("f1", ⟨"received_files/big.bin", false⟩)]⟩
    ⟨"big.bin", 100⟩ (by decide) (by decide) (by decide) (by decide) (by decide)
    (by decide) (by decide)).1 10 19 rfl (by decide)
  rw [h]
  decide

theorem isFinished_mkdirp (d : String) : (UploadEvent.mkdirp d).isFinished = false := rfl

theorem isFinished_openWrite (p : String) (b : Bool) :
    (UploadEvent.openWrite p b).isFinished = false := rfl

theorem isFinished_writeBody (p : String) (n : Nat) :
    (UploadEvent.writeBody p n).isFinished = false := rfl

theorem isFinished_closeStream (p : String) :
    (UploadEvent.closeStream p).isFinished = false := rfl

theorem isFinished_progress (a b : String) (c d e : Nat) (f : Bool)
    (g : Option Completion) : (UploadEvent.progress a b c d e f g).isFinished = f := rfl

set_option maxHeartbeats 3200000 in
theorem uploadStreamPhase_ranged_terminal (hasHandler : Bool)
    (sessions : List (String × SessionData)) (req : UploadRequest)
    (session : SessionData) (fileMetadata : FileMetadata) (filePath : String)
    (s e t : Nat) (preEvents : List UploadEvent)
    (hterm : e + 1 ≥ t)
    (hpre : preEvents.filter (fun ev => ev.isFinished) = []) :
    (uploadStreamPhase hasHandler sessions req session fileMetadata filePath
        (some (s, e, t)) preEvents).message = "File received successfully" ∧
    (∃ p, UploadEvent.closeStream p ∈ (uploadStreamPhase hasHandler sessions req session
        fileMetadata filePath (some (s, e, t)) preEvents).events) ∧
    (hasHandler = true → ∃ received spd tts,
      (uploadStreamPhase hasHandler sessions req session fileMetadata filePath
          (some (s, e, t)) preEvents).events.filter (fun ev => ev.isFinished) =
        [UploadEvent.progress req.fileId fileMetadata.fileName received fileMetadata.size
          spd true (some ⟨filePath, tts, spd⟩)]) ∧
    ((insertNew session.receivedFiles req.fileId).length = session.acceptedFiles.length →
      (uploadStreamPhase hasHandler sessions req session fileMetadata filePath
          (some (s, e, t)) preEvents).sessions = adel sessions req.sessionId) ∧
    ((insertNew session.receivedFiles req.fileId).length ≠ session.acceptedFiles.length →
      ∃ session3,
        (uploadStreamPhase hasHandler sessions req session fileMetadata filePath
            (some (s, e, t)) preEvents).sessions = aset sessions req.sessionId session3 ∧
        session3.receivedFiles = insertNew session.receivedFiles req.fileId ∧
        session3.acceptedFiles = session.acceptedFiles) := by
  by_cases hf : startFalsy (alookup session.transferStartTimes req.fileId) = true
  · refine ⟨?_, ?_, ?_, ?_, ?_⟩
    · simp [uploadStreamPhase, streamSetup, hf, hterm, alookup_aset_same]
    · simp [uploadStreamPhase, streamSetup, hf, hterm, alookup_aset_same]
    · intro hh
      simp [uploadStreamPhase, streamSetup, hf, hterm, hh, hpre, alookup_aset_same,
        List.filter_append, isFinished_mkdirp, isFinished_openWrite,
        isFinished_writeBody, isFinished_closeStream, isFinished_progress]
    · intro hc
      simp [uploadStreamPhase, streamSetup, hf, hterm, hc, alookup_aset_same]
    · intro hc
      simp [uploadStreamPhase, streamSetup, hf, hterm, hc, alookup_aset_same]
      exact ⟨_, rfl, rfl, rfl⟩
  · by_cases hs0 : s = 0
    · refine ⟨?_, ?_, ?_, ?_, ?_⟩
      · simp [uploadStreamPhase, streamSetup, hf, hs0, hterm, alookup_aset_same]
      · simp [uploadStreamPhase, streamSetup, hf, hs0, hterm, alookup_aset_same]
      · intro hh
        simp [uploadStreamPhase, streamSetup, hf, hs0, hterm, hh, hpre,
          alookup_aset_same, List.filter_append, isFinished_mkdirp,
          isFinished_openWrite, isFinished_writeBody, isFinished_closeStream,
          isFinished_progress]
      · intro hc
        simp [uploadStreamPhase, streamSetup, hf, hs0, hterm, hc, alookup_aset_same]
      · intro hc
        simp [uploadStreamPhase, streamSetup, hf, hs0, hterm, hc, alookup_aset_same]
        exact ⟨_, rfl, rfl, rfl⟩
    · have hpos : 0 < s := Nat.pos_of_ne_zero hs0
      cases hstream : alookup session.fileStreams req.fileId with
      | none =>
        refine ⟨?_, ?_, ?_, ?_, ?_⟩
        · simp [uploadStreamPhase, streamSetup, hf, hs0, hpos, hstream, hterm,
            alookup_aset_same]
        · simp [uploadStreamPhase, streamSetup, hf, hs0, hpos, hstream, hterm,
            alookup_aset_same]
        · intro hh
          simp [uploadStreamPhase, streamSetup, hf, hs0, hpos, hstream, hterm, hh,
            hpre, alookup_aset_same, List.filter_append, isFinished_mkdirp,
            isFinished_openWrite, isFinished_writeBody, isFinished_closeStream,
            isFinished_progress]
        · intro hc
          simp [uploadStreamPhase, streamSetup, hf, hs0, hpos, hstream, hterm, hc,
            alookup_aset_same]
        · intro hc
          simp [uploadStreamPhase, streamSetup, hf, hs0, hpos, hstream, hterm, hc,
            alookup_aset_same]
          exact ⟨_, rfl, rfl, rfl⟩
      | some st =>
        by_cases hcl : st.closed = true
        · refine ⟨?_, ?_, ?_, ?_, ?_⟩
          · simp [uploadStreamPhase, streamSetup, hf, hs0, hpos, hstream, hcl, hterm,
              alookup_aset_same]
          · simp [uploadStreamPhase, streamSetup, hf, hs0, hpos, hstream, hcl, hterm,
              alookup_aset_same]
          · intro hh
            simp [uploadStreamPhase, streamSetup, hf, hs0, hpos, hstream, hcl, hterm,
              hh, hpre, alookup_aset_same, List.filter_append, isFinished_mkdirp,
              isFinished_openWrite, isFinished_writeBody, isFinished_closeStream,
              isFinished_progress]
          · intro hc
            simp [uploadStreamPhase, streamSetup, hf, hs0, hpos, hstream, hcl, hterm,
              hc, alookup_aset_same]
          · intro hc
            simp [uploadStreamPhase, streamSetup, hf, hs0, hpos, hstream, hcl, hterm,
              hc, alookup_aset_same]
            exact ⟨_, rfl, rfl, rfl⟩
        · refine ⟨?_, ?_, ?_, ?_, ?_⟩
          · simp [uploadStreamPhase, streamSetup, hf, hs0, hpos, hstream, hcl, hterm,
              alookup_aset_same]
          · simp [uploadStreamPhase, streamSetup, hf, hs0, hpos, hstream, hcl, hterm,
              alookup_aset_same]
          · intro hh
            simp [uploadStreamPhase, streamSetup, hf, hs0, hpos, hstream, hcl, hterm,
              hh, hpre, alookup_aset_same, List.filter_append, isFinished_mkdirp,
              isFinished_openWrite, isFinished_writeBody, isFinished_closeStream,
              isFinished_progress]
          · intro hc
            simp [uploadStreamPhase, streamSetup, hf, hs0, hpos, hstream, hcl, hterm,
              hc, alookup_aset_same]
          · intro hc
            simp [uploadStreamPhase, streamSetup, hf, hs0, hpos, hstream, hcl, hterm,
              hc, alookup_aset_same]
            exact ⟨_, rfl, rfl, rfl⟩


set_option maxHeartbeats 3200000 in
/-- A single-shot chunk is terminal when the accumulated byte count
reaches the descriptor's size; the effects mirror the ranged case. -/
theorem uploadStreamPhase_single_terminal (hasHandler : Bool)
    (sessions : List (String × SessionData)) (req : UploadRequest)
    (session : SessionData) (fileMetadata : FileMetadata) (filePath : String)
    (preEvents : List UploadEvent)
    (hstream : startFalsy (alookup session.transferStartTimes req.fileId) = false →
      alookup session.fileStreams req.fileId ≠ none)
    (hterm : (if startFalsy (alookup session.transferStartTimes req.fileId) = true
        then 0 else (alookup session.bytesReceived req.fileId).getD 0) + req.bodyLen ≥
      fileMetadata.size)
    (hpre : preEvents.filter (fun ev => ev.isFinished) = []) :
    (uploadStreamPhase hasHandler sessions req session fileMetadata filePath none
        preEvents).message = "File received successfully" ∧
    (∃ p, UploadEvent.closeStream p ∈ (uploadStreamPhase hasHandler sessions req session
        fileMetadata filePath none preEvents).events) ∧
    (hasHandler = true → ∃ received spd tts,
      (uploadStreamPhase hasHandler sessions req session fileMetadata filePath none
          preEvents).events.filter (fun ev => ev.isFinished) =
        [UploadEvent.progress req.fileId fileMetadata.fileName received fileMetadata.size
          spd true (some ⟨filePath, tts, spd⟩)]) ∧
    ((insertNew session.receivedFiles req.fileId).length = session.acceptedFiles.length →
      (uploadStreamPhase hasHandler sessions req session fileMetadata filePath none
          preEvents).sessions = adel sessions req.sessionId) ∧
    ((insertNew session.receivedFiles req.fileId).length ≠ session.acceptedFiles.length →
      ∃ session3,
        (uploadStreamPhase hasHandler sessions req session fileMetadata filePath none
            preEvents).sessions = aset sessions req.sessionId session3 ∧
        session3.receivedFiles = insertNew session.receivedFiles req.fileId ∧
        session3.acceptedFiles = session.acceptedFiles) := by
  by_cases hf : startFalsy (alookup session.transferStartTimes req.fileId) = true
  · simp only [hf] at hterm
    simp at hterm
    refine ⟨?_, ?_, ?_, ?_, ?_⟩
    · simp [uploadStreamPhase, streamSetup, hf, hterm, alookup_aset_same]
    · simp [uploadStreamPhase, streamSetup, hf, hterm, alookup_aset_same]
    · intro hh
      simp [uploadStreamPhase, streamSetup, hf, hterm, hh, hpre, alookup_aset_same,
        List.filter_append, isFinished_mkdirp, isFinished_openWrite,
        isFinished_writeBody, isFinished_closeStream, isFinished_progress]
    · intro hc
      simp [uploadStreamPhase, streamSetup, hf, hterm, hc, alookup_aset_same]
    · intro hc
      simp [uploadStreamPhase, streamSetup, hf, hterm, hc, alookup_aset_same]
      exact ⟨_, rfl, rfl, rfl⟩
  · have hf' : startFalsy (alookup session.transferStartTimes req.fileId) = false :=
      Bool.eq_false_iff.mpr hf
    simp only [hf'] at hterm
    simp at hterm
    cases hst : alookup session.fileStreams req.fileId with
    | none => exact absurd hst (hstream hf')
    | some st =>
      refine ⟨?_, ?_, ?_, ?_, ?_⟩
      · simp [uploadStreamPhase, streamSetup, hf, hst, hterm, alookup_aset_same]
      · simp [uploadStreamPhase, streamSetup, hf, hst, hterm, alookup_aset_same]
      · intro hh
        simp [uploadStreamPhase, streamSetup, hf, hst, hterm, hh, hpre,
          alookup_aset_same, List.filter_append, isFinished_mkdirp,
          isFinished_openWrite, isFinished_writeBody, isFinished_closeStream,
          isFinished_progress]
      · intro hc
        simp [uploadStreamPhase, streamSetup, hf, hst, hterm, hc, alookup_aset_same]
      · intro hc
        simp [uploadStreamPhase, streamSetup, hf, hst, hterm, hc, alookup_aset_same]
        exact ⟨_, rfl, rfl, rfl⟩

/-- **C4**, confirmed.  For an authorized upload chunk, the "File received
successfully" completion fires exactly when the chunk is terminal — for a
ranged upload when `END + 1 ≥ TOTAL`, for a single-shot upload when the
accumulated byte count reaches the descriptor's size.  On a terminal chunk
the write handle is closed, the progress callback fires exactly once with
`finished = true` carrying `{filePath, totalTimeSeconds, averageSpeed}`,
and the session is deleted from the table iff the received-file count now
equals the accepted-file count; otherwise the session survives with the
file recorded in `receivedFiles`. -/
theorem c4_terminal_chunk (saveDirectory : String) (hasHandler : Bool)
    (sessions : List (String × SessionData)) (req : UploadRequest)
    (session : SessionData) (fileMetadata : FileMetadata)
    (hnd : (sessions.map Prod.fst).Nodup)
    (h1 : req.sessionId ≠ "") (h2 : req.fileId ≠ "") (h3 : req.token ≠ "")
    (hs : alookup sessions req.sessionId = some session)
    (ht : alookup session.tokens req.fileId = some req.token)
    (ha : req.fileId ∈ session.acceptedFiles)
    (hm : alookup session.files req.fileId = some fileMetadata) :
    (∀ s e, req.contentRange = some (some (s, e, fileMetadata.size)) →
      ((handleUpload saveDirectory hasHandler sessions req).message =
          "File received successfully" ↔ e + 1 ≥ fileMetadata.size) ∧
      (e + 1 ≥ fileMetadata.size →
        (∃ p, UploadEvent.closeStream p ∈
          (handleUpload saveDirectory hasHandler sessions req).events) ∧
        (hasHandler = true → ∃ received spd tts,
          (handleUpload saveDirectory hasHandler sessions req).events.filter
              (fun ev => ev.isFinished) =
            [UploadEvent.progress req.fileId fileMetadata.fileName received
              fileMetadata.size spd true
              (some ⟨pathJoin saveDirectory fileMetadata.fileName, tts, spd⟩)]) ∧
        (alookup (handleUpload saveDirectory hasHandler sessions req).sessions
            req.sessionId = none ↔
          (insertNew session.receivedFiles req.fileId).length =
            session.acceptedFiles.length) ∧
        ((insertNew session.receivedFiles req.fileId).length ≠
            session.acceptedFiles.length →
          ∃ sess', alookup (handleUpload saveDirectory hasHandler sessions req).sessions
              req.sessionId = some sess' ∧ req.fileId ∈ sess'.receivedFiles))) ∧
    (req.contentRange = none →
      (startFalsy (alookup session.transferStartTimes req.fileId) = false →
        alookup session.fileStreams req.fileId ≠ none) →
      ((handleUpload saveDirectory hasHandler sessions req).message =
          "File received successfully" ↔
        (if startFalsy (alookup session.transferStartTimes req.fileId) = true
          then 0 else (alookup session.bytesReceived req.fileId).getD 0) +
          req.bodyLen ≥ fileMetadata.size) ∧
      ((if startFalsy (alookup session.transferStartTimes req.fileId) = true
          then 0 else (alookup session.bytesReceived req.fileId).getD 0) +
          req.bodyLen ≥ fileMetadata.size →
        (∃ p, UploadEvent.closeStream p ∈
          (handleUpload saveDirectory hasHandler sessions req).events) ∧
        (hasHandler = true → ∃ received spd tts,
          (handleUpload saveDirectory hasHandler sessions req).events.filter
              (fun ev => ev.isFinished) =
            [UploadEvent.progress req.fileId fileMetadata.fileName received
              fileMetadata.size spd true
              (some ⟨pathJoin saveDirectory fileMetadata.fileName, tts, spd⟩)]) ∧
        (alookup (handleUpload saveDirectory hasHandler sessions req).sessions
            req.sessionId = none ↔
          (insertNew session.receivedFiles req.fileId).length =
            session.acceptedFiles.length) ∧
        ((insertNew session.receivedFiles req.fileId).length ≠
            session.acceptedFiles.length →
          ∃ sess', alookup (handleUpload saveDirectory hasHandler sessions req).sessions
              req.sessionId = some sess' ∧ req.fileId ∈ sess'.receivedFiles))) := by
  have hauth := handleUpload_authorized saveDirectory hasHandler sessions req session
    fileMetadata h1 h2 h3 hs ht ha hm
  have hpre : ([UploadEvent.mkdirp (dirname (pathJoin saveDirectory
      fileMetadata.fileName))].filter (fun ev => ev.isFinished)) = [] := by
    simp [isFinished_mkdirp]
  constructor
  · intro s e hcr
    rw [hauth.2 s e hcr]
    by_cases hterm : e + 1 ≥ fileMetadata.size
    · have hT := uploadStreamPhase_ranged_terminal hasHandler sessions req session
        fileMetadata (pathJoin saveDirectory fileMetadata.fileName) s e
        fileMetadata.size
        [UploadEvent.mkdirp (dirname (pathJoin saveDirectory fileMetadata.fileName))]
        hterm hpre
      refine ⟨⟨fun _ => hterm, fun _ => hT.1⟩, fun _ => ⟨hT.2.1, hT.2.2.1, ?_, ?_⟩⟩
      · constructor
        · intro hnone
          by_contra hc
          obtain ⟨session3, hss, _, _⟩ := hT.2.2.2.2 hc
          rw [hss, alookup_aset_same] at hnone
          cases hnone
        · intro hc
          rw [hT.2.2.2.1 hc]
          exact alookup_adel_self sessions req.sessionId hnd
      · intro hc
        obtain ⟨session3, hss, hrf, _⟩ := hT.2.2.2.2 hc
        refine ⟨session3, ?_, ?_⟩
        · rw [hss, alookup_aset_same]
        · rw [hrf]
          exact mem_insertNew_self session.receivedFiles req.fileId
    · have hN := uploadStreamPhase_ranged_nonterminal hasHandler sessions req session
        fileMetadata (pathJoin saveDirectory fileMetadata.fileName) s e
        fileMetadata.size
        [UploadEvent.mkdirp (dirname (pathJoin saveDirectory fileMetadata.fileName))]
        hterm
      refine ⟨⟨fun hmsg => absurd (hN.2.symm.trans hmsg) (by decide), fun habs =>
        absurd habs hterm⟩, fun habs => absurd habs hterm⟩
  · intro hcr hstream
    rw [hauth.1 hcr]
    by_cases hterm : (if startFalsy (alookup session.transferStartTimes req.fileId) =
        true then 0 else (alookup session.bytesReceived req.fileId).getD 0) +
        req.bodyLen ≥ fileMetadata.size
    · have hT := uploadStreamPhase_single_terminal hasHandler sessions req session
        fileMetadata (pathJoin saveDirectory fileMetadata.fileName)
        [UploadEvent.mkdirp (dirname (pathJoin saveDirectory fileMetadata.fileName))]
        hstream hterm hpre
      refine ⟨⟨fun _ => hterm, fun _ => hT.1⟩, fun _ => ⟨hT.2.1, hT.2.2.1, ?_, ?_⟩⟩
      · constructor
        · intro hnone
          by_contra hc
          obtain ⟨session3, hss, _, _⟩ := hT.2.2.2.2 hc
          rw [hss, alookup_aset_same] at hnone
          cases hnone
        · intro hc
          rw [hT.2.2.2.1 hc]
          exact alookup_adel_self sessions req.sessionId hnd
      · intro hc
        obtain ⟨session3, hss, hrf, _⟩ := hT.2.2.2.2 hc
        refine ⟨session3, ?_, ?_⟩
        · rw [hss, alookup_aset_same]
        · rw [hrf]
          exact mem_insertNew_self session.receivedFiles req.fileId
    · have hN := uploadStreamPhase_single_nonterminal hasHandler sessions req session
        fileMetadata (pathJoin saveDirectory fileMetadata.fileName)
        [UploadEvent.mkdirp (dirname (pathJoin saveDirectory fileMetadata.fileName))]
        hstream hterm
      refine ⟨⟨fun hmsg => absurd (hN.2.symm.trans hmsg) (by decide), fun habs =>
        absurd habs hterm⟩, fun habs => absurd habs hterm⟩

/-- **C4**, witness: a fresh session with one accepted file receives the
terminal ranged chunk 0–3 of 4; the response is the completion message and
the session is removed from the table. -/
theorem c4_terminal_chunk_witness :
    (handleUpload "./received_files" true
        [("s1", ⟨"i", [("f1", ⟨"report.pdf", 4⟩)], [("f1", "tok")], ["f1"], [], [],
          [], []⟩)]
        ⟨"s1", "f1", "tok", some (some (0, 3, 4)), 4, 1000⟩).message =
      "File received successfully" ∧
    alookup (handleUpload "./received_files" true
        [("s1", ⟨"i", [("f1", ⟨"report.pdf", 4⟩)], [("f1", "tok")], ["f1"], [], [],
          [], []⟩)]
        ⟨"s1", "f1", "tok", some (some (0, 3, 4)), 4, 1000⟩).sessions "s1" = none := by
  have h := (c4_terminal_chunk "./received_files" true
    [("s1", ⟨"i", [("f1", ⟨"report.pdf", 4⟩)], [("f1", "tok")], ["f1"], [], [], [], []⟩)]
    ⟨"s1", "f1", "tok", some (some (0, 3, 4)), 4, 1000⟩
    ⟨"i", [("f1", ⟨"report.pdf", 4⟩)], [("f1", "tok")], ["f1"], [], [], [], []⟩
    ⟨"report.pdf", 4⟩ (by decide) (by decide) (by decide) (by decide) (by decide)
    (by decide) (by decide) (by decide)).1 0 3 rfl
  exact ⟨h.1.mpr (by decide), (h.2 (by decide)).2.2.1.mpr (by decide)⟩

/-! ## Client chunking: specification functions and loop invariants -/

/-- The number of chunks the client's loop sends for a fully successful
upload: `⌈size / CHUNK_SIZE⌉`. -/
def numChunks (size : Nat) : Nat :=
  (size + clientChunkSize - 1) / clientChunkSize

/-- The k-th chunk request of a file of `size` bytes:
range `[k·C, min((k+1)·C, size) - 1]` with `TOTAL = size` and
`Content-Length` the range length. -/
def chunkFor (size k : Nat) : ChunkRequest :=
  ⟨k * clientChunkSize, min ((k + 1) * clientChunkSize) size - 1, size,
    min ((k + 1) * clientChunkSize) size - k * clientChunkSize⟩

theorem uploadChunkLoop_stop (size : Nat) (respOk : Nat → Bool) (fuel offset idx : Nat)
    (h : ¬ offset < size) :
    uploadChunkLoop size respOk fuel offset idx = ([], true) := by
  cases fuel <;> simp [uploadChunkLoop, h]

theorem uploadChunkLoop_succ_ok (size : Nat) (respOk : Nat → Bool) (fuel offset idx : Nat)
    (h : offset < size) (hok : respOk idx = true) :
    uploadChunkLoop size respOk (fuel + 1) offset idx =
      ((⟨offset, min (offset + clientChunkSize) size - 1, size,
          min (offset + clientChunkSize) size - offset⟩ : ChunkRequest) ::
        (uploadChunkLoop size respOk fuel (min (offset + clientChunkSize) size)
          (idx + 1)).1,
        (uploadChunkLoop size respOk fuel (min (offset + clientChunkSize) size)
          (idx + 1)).2) := by
  simp [uploadChunkLoop, h, hok]

theorem uploadChunkLoop_succ_fail (size : Nat) (respOk : Nat → Bool)
    (fuel offset idx : Nat) (h : offset < size) (hok : respOk idx = false) :
    uploadChunkLoop size respOk (fuel + 1) offset idx =
      ([(⟨offset, min (offset + clientChunkSize) size - 1, size,
          min (offset + clientChunkSize) size - offset⟩ : ChunkRequest)], false) := by
  simp [uploadChunkLoop, h, hok]

set_option maxHeartbeats 1600000 in
/-- Invariant of the client's chunk loop started at `offset = idx·C`: the
chunks sent are exactly `chunkFor size (idx + j)` in order; on success the
loop sends every remaining chunk and all their responses were ok; on
failure the last sent chunk's response failed and all earlier ones were
ok. -/
theorem uploadChunkLoop_spec (size : Nat) (respOk : Nat → Bool) :
    ∀ fuel idx sent res, size - idx * clientChunkSize ≤ fuel →
      uploadChunkLoop size respOk fuel (idx * clientChunkSize) idx = (sent, res) →
      (∀ j (hj : j < sent.length), sent.get ⟨j, hj⟩ = chunkFor size (idx + j)) ∧
      (∀ j, j < sent.length → idx + j < numChunks size) ∧
      (res = true → sent.length = numChunks size - idx ∧
        ∀ j, j < sent.length → respOk (idx + j) = true) ∧
      (res = false → 1 ≤ sent.length ∧ respOk (idx + sent.length - 1) = false ∧
        ∀ j, j < sent.length - 1 → respOk (idx + j) = true) := by
  have hC : clientChunkSize = 10485760 := by norm_num [clientChunkSize]
  intro fuel
  induction fuel with
  | zero =>
    intro idx sent res hfo heq
    rw [uploadChunkLoop_stop size respOk 0 _ idx (by rw [hC] at hfo ⊢; omega)] at heq
    injection heq with h1 h2
    subst h1
    subst h2
    refine ⟨fun j hj => absurd hj (by simp), fun j hj => absurd hj (by simp), ?_, ?_⟩
    · intro _
      refine ⟨?_, fun j hj => absurd hj (by simp)⟩
      simp only [numChunks, hC]
      rw [hC] at hfo
      simp
      omega
    · intro h
      cases h
  | succ fuel ih =>
    intro idx sent res hfo heq
    have harg : idx * clientChunkSize + clientChunkSize = (idx + 1) * clientChunkSize := by
      ring
    by_cases hlt : idx * clientChunkSize < size
    · by_cases hok : respOk idx = true
      · rw [uploadChunkLoop_succ_ok size respOk fuel _ idx hlt hok] at heq
        by_cases hfit : (idx + 1) * clientChunkSize ≤ size
        · have hmin : min (idx * clientChunkSize + clientChunkSize) size =
              (idx + 1) * clientChunkSize := by
            rw [harg]
            exact min_eq_left hfit
          rw [hmin] at heq
          obtain ⟨ha, he, hb, hd⟩ := ih (idx + 1)
            (uploadChunkLoop size respOk fuel ((idx + 1) * clientChunkSize) (idx + 1)).1
            (uploadChunkLoop size respOk fuel ((idx + 1) * clientChunkSize) (idx + 1)).2
            (by rw [hC] at hfo hfit ⊢; omega) rfl
          injection heq with h1 h2
          subst h1
          subst h2
          have hcf : chunkFor size idx =
              ⟨idx * clientChunkSize, (idx + 1) * clientChunkSize - 1, size,
                (idx + 1) * clientChunkSize - idx * clientChunkSize⟩ := by
            simp [chunkFor, min_eq_left hfit]
          refine ⟨?_, ?_, ?_, ?_⟩
          · intro j hj
            cases j with
            | zero =>
              simp [hcf]
            | succ j =>
              simp only [List.length_cons] at hj
              have hj' := Nat.lt_of_succ_lt_succ hj
              have hidx : idx + 1 + j = idx + (j + 1) := by omega
              simpa [hidx] using ha j hj'
          · intro j hj
            cases j with
            | zero =>
              simp only [numChunks, hC]
              rw [hC] at hlt
              omega
            | succ j =>
              simp only [List.length_cons] at hj
              have hj' := Nat.lt_of_succ_lt_succ hj
              have hidx : idx + 1 + j = idx + (j + 1) := by omega
              rw [← hidx]
              exact he j hj'
          · intro hres
            obtain ⟨hlen, hall⟩ := hb hres
            have hidxN : idx < numChunks size := by
              simp only [numChunks, hC]
              rw [hC] at hlt
              omega
            have hidxN' : idx + 1 ≤ numChunks size := hidxN
            constructor
            · simp only [List.length_cons, hlen]
              omega
            · intro j hj
              cases j with
              | zero => simpa using hok
              | succ j =>
                simp only [List.length_cons, hlen] at hj
                have hidx : idx + 1 + j = idx + (j + 1) := by omega
                rw [← hidx]
                exact hall j (by omega)
          · intro hres
            obtain ⟨hlen1, hfail, hearlier⟩ := hd hres
            refine ⟨by simp, ?_, ?_⟩
            · simp only [List.length_cons]
              have hidx2 : idx + ((uploadChunkLoop size respOk fuel
                  ((idx + 1) * clientChunkSize) (idx + 1)).1.length + 1) - 1 =
                  idx + 1 + (uploadChunkLoop size respOk fuel
                    ((idx + 1) * clientChunkSize) (idx + 1)).1.length - 1 := by
                omega
              rw [hidx2]
              exact hfail
            · intro j hj
              simp only [List.length_cons] at hj
              cases j with
              | zero => simpa using hok
              | succ j =>
                have hidx : idx + 1 + j = idx + (j + 1) := by omega
                rw [← hidx]
                exact hearlier j (by omega)
        · have hmin : min (idx * clientChunkSize + clientChunkSize) size = size := by
            rw [harg]
            exact min_eq_right (by omega)
          rw [hmin, uploadChunkLoop_stop size respOk fuel size (idx + 1) (by omega)]
            at heq
          injection heq with h1 h2
          subst h1
          subst h2
          have hcf : chunkFor size idx =
              ⟨idx * clientChunkSize, size - 1, size, size - idx * clientChunkSize⟩ := by
            simp [chunkFor, min_eq_right (le_of_not_le hfit)]
          have hN : numChunks size = idx + 1 := by
            simp only [numChunks, hC]
            rw [hC] at hlt hfit
            omega
          refine ⟨?_, ?_, ?_, ?_⟩
          · intro j hj
            simp only [List.length_cons, List.length_nil] at hj
            interval_cases j
            simp [hcf]
          · intro j hj
            simp only [List.length_cons, List.length_nil] at hj
            interval_cases j
            omega
          · intro _
            refine ⟨by simp [hN], ?_⟩
            intro j hj
            simp only [List.length_cons, List.length_nil] at hj
            interval_cases j
            simpa using hok
          · intro h
            cases h
      · have hokf : respOk idx = false := Bool.eq_false_iff.mpr hok
        rw [uploadChunkLoop_succ_fail size respOk fuel _ idx hlt hokf] at heq
        injection heq with h1 h2
        subst h1
        subst h2
        have hN : idx < numChunks size := by
          simp only [numChunks, hC]
          rw [hC] at hlt
          omega
        refine ⟨?_, ?_, ?_, ?_⟩
        · intro j hj
          simp only [List.length_cons, List.length_nil] at hj
          interval_cases j
          simp [chunkFor, harg]
        · intro j hj
          simp only [List.length_cons, List.length_nil] at hj
          interval_cases j
          omega
        · intro h
          cases h
        · intro _
          refine ⟨by simp, by simpa using hokf, ?_⟩
          intro j hj
          simp at hj
    · rw [uploadChunkLoop_stop size respOk (fuel + 1) _ idx hlt] at heq
      injection heq with h1 h2
      subst h1
      subst h2
      refine ⟨fun j hj => absurd hj (by simp), fun j hj => absurd hj (by simp), ?_, ?_⟩
      · intro _
        refine ⟨?_, fun j hj => absurd hj (by simp)⟩
        simp only [numChunks, hC]
        rw [hC] at hlt
        simp
        omega
      · intro h
        cases h

set_option maxHeartbeats 1600000 in
/-- **C6**, confirmed.  A file larger than the 50 MiB threshold is sent as
consecutive 10 MiB chunks: the j-th request declares
`X-Content-Range: bytes j·C-(min((j+1)·C, S) - 1)/S` with `Content-Length`
equal to the chunk's length; the ranges are pairwise disjoint and strictly
increasing, and on full success the `⌈S/C⌉` chunks cover `[0, S-1]`;
`uploadFile` stops with `false` immediately after the first chunk whose
response is not ok.  A file of at most 50 MiB goes out as one single-shot
request with no range header. -/
theorem c6_chunked_upload (size : Nat) (respOk : Nat → Bool) :
    (size > chunkThreshold →
      ∃ sent res, uploadFileModel size respOk = UploadTrace.chunked sent res ∧
        (∀ j (hj : j < sent.length), sent.get ⟨j, hj⟩ = chunkFor size j) ∧
        (∀ j (hj : j < sent.length),
          (sent.get ⟨j, hj⟩).start = j * clientChunkSize ∧
          (sent.get ⟨j, hj⟩).endByte = min ((j + 1) * clientChunkSize) size - 1 ∧
          (sent.get ⟨j, hj⟩).total = size ∧
          (sent.get ⟨j, hj⟩).contentLength =
            (sent.get ⟨j, hj⟩).endByte + 1 - (sent.get ⟨j, hj⟩).start) ∧
        (∀ i j (hi : i < sent.length) (hj : j < sent.length), i < j →
          (sent.get ⟨i, hi⟩).endByte < (sent.get ⟨j, hj⟩).start) ∧
        (res = true ↔ ∀ k, k < numChunks size → respOk k = true) ∧
        (res = true → sent.length = numChunks size ∧
          ∀ b, b < size → ∃ j, ∃ hj : j < sent.length,
            (sent.get ⟨j, hj⟩).start ≤ b ∧ b ≤ (sent.get ⟨j, hj⟩).endByte) ∧
        (∀ k, (∀ j, j < k → respOk j = true) → respOk k = false →
          k < numChunks size → res = false ∧ sent.length = k + 1)) ∧
    (size ≤ chunkThreshold →
      uploadFileModel size respOk = UploadTrace.singleShot (respOk 0)) := by
  have hC : clientChunkSize = 10485760 := by norm_num [clientChunkSize]
  constructor
  · intro hgt
    obtain ⟨ha, he, hb, hd⟩ := uploadChunkLoop_spec size respOk size 0
      (uploadChunkLoop size respOk size 0 0).1 (uploadChunkLoop size respOk size 0 0).2
      (by simp) (by rw [Nat.zero_mul])
    refine ⟨(uploadChunkLoop size respOk size 0 0).1,
      (uploadChunkLoop size respOk size 0 0).2, ?_, ?_, ?_, ?_, ?_, ?_, ?_⟩
    · simp [uploadFileModel, hgt]
    · intro j hj
      simpa using ha j hj
    · intro j hj
      rw [show (uploadChunkLoop size respOk size 0 0).1.get ⟨j, hj⟩ = chunkFor size j
        from by simpa using ha j hj]
      have hjN := he j hj
      simp only [Nat.zero_add, numChunks, hC] at hjN
      refine ⟨rfl, rfl, rfl, ?_⟩
      simp only [chunkFor, hC]
      omega
    · intro i j hi hj hij
      rw [show (uploadChunkLoop size respOk size 0 0).1.get ⟨i, hi⟩ = chunkFor size i
          from by simpa using ha i hi,
        show (uploadChunkLoop size respOk size 0 0).1.get ⟨j, hj⟩ = chunkFor size j
          from by simpa using ha j hj]
      simp only [chunkFor, hC]
      omega
    · constructor
      · intro hres k hk
        obtain ⟨hlen, hall⟩ := hb hres
        simpa using hall k (by omega)
      · intro hall
        cases hres : (uploadChunkLoop size respOk size 0 0).2 with
        | true => rfl
        | false =>
          obtain ⟨hlen1, hfail, _⟩ := hd hres
          have hlt := he ((uploadChunkLoop size respOk size 0 0).1.length - 1) (by omega)
          simp only [Nat.zero_add] at hlt hfail
          exact absurd (hall _ hlt) (by simp [hfail])
    · intro hres
      obtain ⟨hlen, hall⟩ := hb hres
      refine ⟨by simpa using hlen, ?_⟩
      intro b hbs
      have hlen' : (uploadChunkLoop size respOk size 0 0).1.length = numChunks size := by
        simpa using hlen
      refine ⟨b / clientChunkSize, ?_, ?_, ?_⟩
      · rw [hlen']
        simp only [numChunks, hC]
        omega
      · rw [show (uploadChunkLoop size respOk size 0 0).1.get
            ⟨b / clientChunkSize, by
              rw [hlen']
              simp only [numChunks, hC]
              omega⟩ = chunkFor size (b / clientChunkSize)
          from by simpa using ha (b / clientChunkSize) (by
            rw [hlen']
            simp only [numChunks, hC]
            omega)]
        simp only [chunkFor, hC]
        omega
      · rw [show (uploadChunkLoop size respOk size 0 0).1.get
            ⟨b / clientChunkSize, by
              rw [hlen']
              simp only [numChunks, hC]
              omega⟩ = chunkFor size (b / clientChunkSize)
          from by simpa using ha (b / clientChunkSize) (by
            rw [hlen']
            simp only [numChunks, hC]
            omega)]
        simp only [chunkFor, hC]
        omega
    · intro k hkall hkfail hkN
      have hres' : (uploadChunkLoop size respOk size 0 0).2 = false := by
        cases hres : (uploadChunkLoop size respOk size 0 0).2 with
        | false => rfl
        | true =>
          obtain ⟨hlen, hall⟩ := hb hres
          have := hall k (by simp [hlen]; omega)
          simp only [Nat.zero_add] at this
          exact absurd this (by simp [hkfail])
      obtain ⟨hlen1, hfail, hearlier⟩ := hd hres'
      simp only [Nat.zero_add] at hfail hearlier
      refine ⟨hres', ?_⟩
      by_contra hne
      rcases Nat.lt_or_ge ((uploadChunkLoop size respOk size 0 0).1.length - 1) k
        with hl | hg
      · exact absurd (hkall _ hl) (by simp [hfail])
      · have hgt' : k < (uploadChunkLoop size respOk size 0 0).1.length - 1 := by omega
        exact absurd (hearlier k hgt') (by simp [hkfail])
  · intro hle
    simp [uploadFileModel, Nat.not_lt.mpr hle]

/-- **C6**, witness: a file of exactly 50 MiB goes out as a single
single-shot request; one byte more is split into five full 10 MiB chunks
and a final 1-byte chunk covering `[0, S-1]`. -/
theorem c6_chunked_upload_witness :
    uploadFileModel 52428800 (fun _ => true) = UploadTrace.singleShot true ∧
    uploadFileModel 52428801 (fun _ => true) = UploadTrace.chunked
      [⟨0, 10485759, 52428801, 10485760⟩, ⟨10485760, 20971519, 52428801, 10485760⟩,
        ⟨20971520, 31457279, 52428801, 10485760⟩,
        ⟨31457280, 41943039, 52428801, 10485760⟩,
        ⟨41943040, 52428799, 52428801, 10485760⟩,
        ⟨52428800, 52428800, 52428801, 1⟩] true := by
  constructor
  · exact (c6_chunked_upload 52428800 (fun _ => true)).2 (by decide)
  · decide

/-- **C4**, counterexample.  The unconditioned claim fails on a reachable
state: in a session with two accepted files where `f1` has already been
fully received (its write stream was deleted on completion, the session
survives because `f2` is pending), a re-sent authorized single-shot chunk
for `f1` satisfies the claimed terminal condition — `bytesReceived[f1] = 4
≥ size = 4` — yet the route answers 500 "File stream not found": no stream
is closed, no `finished = true` callback fires, and the session is not
deleted. -/
theorem c4_counterexample :
    (handleUpload "./received_files" true
        [("s1", ⟨"i", [("f1", ⟨"a.bin", 4⟩), ("f2", ⟨"b.bin", 9⟩)],
          [("f1", "t1"), ("f2", "t2")], ["f1", "f2"], ["f1"], [("f1", 500)],
          [("f1", 4)], []⟩)]
        ⟨"s1", "f1", "t1", none, 4, 1000⟩) =
      ⟨500, "File stream not found", none, none,
        [("s1", ⟨"i", [("f1", ⟨"a.bin", 4⟩), ("f2", ⟨"b.bin", 9⟩)],
          [("f1", "t1"), ("f2", "t2")], ["f1", "f2"], ["f1"], [("f1", 500)],
          [("f1", 4)], []⟩)],
        [UploadEvent.mkdirp "received_files"]⟩ ∧
    (handleUpload "./received_files" true
        [("s1", ⟨"i", [("f1", ⟨"a.bin", 4⟩), ("f2", ⟨"b.bin", 9⟩)],
          [("f1", "t1"), ("f2", "t2")], ["f1", "f2"], ["f1"], [("f1", 500)],
          [("f1", 4)], []⟩)]
        ⟨"s1", "f1", "t1", none, 4, 1000⟩).events.filter
      (fun ev => ev.isFinished) = [] ∧
    (4 : Nat) ≥ (4 : Nat) := by
  decide
